import Mathlib

/-
  Verification development for the GR-Teleforge batch telemetry pipeline
  (backend/run_pipeline.py and backend/core_pipeline/*).

  The pipeline stages are shallowly embedded as Lean functions over explicit
  row lists.  Timestamps are modelled as integer milliseconds (the pipeline's
  uniform grid is 50 ms, and pandas datetime arithmetic at that granularity is
  exact); numeric channel values are rationals, with `Option` representing
  NaN/missing ("none" = NaN), matching pandas' skip-NaN semantics which are
  reproduced operation by operation below.
-/

namespace Teleforge

/-! ## Generic list helpers (stable sorting, run grouping, pandas-style folds) -/

/-- Insert `x` into `l`, placing it before the first element `y` with
`keep x y = true`.  Used to build a stable insertion sort. -/
def insertOrdered {α : Type} (keep : α → α → Bool) (x : α) : List α → List α
  | [] => [x]
  | y :: ys => if keep x y then x :: y :: ys else y :: insertOrdered keep x ys

/-- Stable insertion sort: `keep a b = true` means `a` may stay in front of
`b`.  With `keep a b := key a ≤ key b` this sorts ascending and preserves the
input order of equal keys (the theorems below never depend on the order of
tied rows, mirroring pandas' unspecified tie order for quicksort). -/
def insertionSortBy {α : Type} (keep : α → α → Bool) : List α → List α
  | [] => []
  | x :: xs => insertOrdered keep x (insertionSortBy keep xs)

/-- Arithmetic mean of a list of rationals, `none` for the empty list
(pandas: mean of an all-NaN/empty series is NaN). -/
def ratMean (l : List ℚ) : Option ℚ :=
  if l.isEmpty then none else some (l.sum / (l.length : ℚ))

/-- Maximum of the non-NaN values of a column, `none` if there are none
(pandas `Series.max` with skipna). -/
def ratMaxOpt (l : List ℚ) : Option ℚ :=
  match l with
  | [] => none
  | x :: xs => some (xs.foldl max x)

/-! ## L6 Pipeline driver (backend/run_pipeline.py, run_full_pipeline) -/

/-- Observable control-flow trace of one `run_full_pipeline` invocation:
which abort branch was taken, whether the zero-events message was printed,
and which of the later stages were executed. -/
structure DriverTrace where
  abortedIngestion : Bool
  abortedSectors : Bool
  ranL3 : Bool
  noEventsMessage : Bool
  ranL4 : Bool
  ranL5 : Bool
deriving DecidableEq

/-- Shallow embedding of `run_full_pipeline` (run_pipeline.py lines 14-49).
The impure stage calls are abstracted into their results: `ingestResult` is
the value of `ingest_and_synchronize_data()` (`none` = the stage returned
None), `sectorResult` likewise for `automated_critical_sector_discovery()`,
and `eventList` the list returned by `detect_critical_events`.  The driver's
branching is reproduced verbatim: `if master_df is None: return`,
`if enhanced_df is None: return`, `if not event_list: print(...); return`,
then steps 4 and 5. -/
def run_full_pipeline {M E : Type} (ingestResult : Option M)
    (sectorResult : Option M) (eventList : List E) : DriverTrace :=
  match ingestResult with
  | none => ⟨true, false, false, false, false, false⟩
  | some _ =>
    match sectorResult with
    | none => ⟨false, true, false, false, false, false⟩
    | some _ =>
      if eventList.isEmpty then ⟨false, false, true, true, false, false⟩
      else ⟨false, false, true, false, true, true⟩

/-! ## L1 Time-grid resampling (backend/core_pipeline/ingestion_sync.py)

The per-chunk resampling of `ingest_and_synchronize_data` (lines 218-247):
`chunk[numeric_cols].resample('50ms').mean()` followed by
`.interpolate(method='linear', limit_direction='both')`.  A chunk is a list
of (timestamp-ms, value) samples for one numeric column.  pandas' `50ms`
buckets are aligned to midnight, and a day is an exact multiple of 50 ms, so
bucket k covers [50k, 50k+50) ms since epoch; the resampled index runs from
the bucket of the chunk's earliest sample to the bucket of its latest, with
left bucket edges as labels.  Empty buckets get NaN means and are then filled
by linear interpolation (interior) or nearest-valid values (edges), which is
what `limit_direction='both'` does. -/

/-- Bucket index of a millisecond timestamp on the 50 ms grid. -/
def bucketOf (t : ℕ) : ℕ := t / 50

/-- Index and value of the last non-NaN entry strictly before position `i`. -/
def prevValid (l : List (Option ℚ)) (i : ℕ) : Option (ℕ × ℚ) :=
  ((l.take i).enum.reverse).findSome? fun p => p.2.map fun v => (p.1, v)

/-- Index and value of the first non-NaN entry strictly after position `i`. -/
def nextValid (l : List (Option ℚ)) (i : ℕ) : Option (ℕ × ℚ) :=
  (l.enum.drop (i + 1)).findSome? fun p => p.2.map fun v => (p.1, v)

/-- pandas `interpolate(method='linear', limit_direction='both')` on a
uniformly indexed series: interior NaNs are linearly interpolated between the
surrounding valid entries, leading/trailing NaNs are filled with the nearest
valid value, and an all-NaN series stays all-NaN. -/
def interpolateBoth (l : List (Option ℚ)) : List (Option ℚ) :=
  l.enum.map fun p =>
    match p.2 with
    | some v => some v
    | none =>
      match prevValid l p.1, nextValid l p.1 with
      | some (j, a), some (k, b) =>
          some (a + (b - a) * (((p.1 : ℚ) - (j : ℚ)) / ((k : ℚ) - (j : ℚ))))
      | some (_, a), none => some a
      | none, some (_, b) => some b
      | none, none => none

/-- Mean of the samples of `rows` falling in bucket `b` (NaN if the bucket is
empty). -/
def bucketMean (rows : List (ℕ × ℚ)) (b : ℕ) : Option ℚ :=
  ratMean (rows.filterMap fun x => if bucketOf x.1 = b then some x.2 else none)

/-- Smallest bucket index touched by a nonempty chunk. -/
def firstBucket (r : ℕ × ℚ) (rs : List (ℕ × ℚ)) : ℕ :=
  (rs.map fun x => bucketOf x.1).foldl Nat.min (bucketOf r.1)

/-- Largest bucket index touched by a nonempty chunk. -/
def lastBucket (r : ℕ × ℚ) (rs : List (ℕ × ℚ)) : ℕ :=
  (rs.map fun x => bucketOf x.1).foldl Nat.max (bucketOf r.1)

/-- Per-chunk 50 ms resampling of ingestion_sync.py lines 218-247:
`resample('50ms').mean()` over the chunk's full time range followed by
bidirectional linear interpolation.  Output pairs are (bucket label in ms,
value).  There is no splitting at gaps and no discarding of long segments:
the grid runs uninterrupted from the first to the last bucket of the chunk,
and interpolation bridges arbitrarily large gaps. -/
def gridResample (rows : List (ℕ × ℚ)) : List (ℕ × Option ℚ) :=
  match rows with
  | [] => []
  | r :: rs =>
    let b0 := firstBucket r rs
    let buckets :=
      (List.range (lastBucket r rs - b0 + 1)).map fun i => b0 + i
    (buckets.map fun b => 50 * b).zip
      (interpolateBoth (buckets.map fun b => bucketMean (r :: rs) b))

/-- Splits a time-sorted chunk into continuous segments, starting a new
segment whenever the gap to the previous sample exceeds 1000 ms. -/
def splitSegmentsAux (cur : List (ℕ × ℚ)) (last : ℕ) :
    List (ℕ × ℚ) → List (List (ℕ × ℚ))
  | [] => [cur.reverse]
  | r :: rs =>
    if 1000 < r.1 - last then cur.reverse :: splitSegmentsAux [r] r.1 rs
    else splitSegmentsAux (r :: cur) r.1 rs

/-- Segment splitting entry point (empty input has no segments). -/
def splitSegments : List (ℕ × ℚ) → List (List (ℕ × ℚ))
  | [] => []
  | r :: rs => splitSegmentsAux [r] r.1 rs

/-- Duration in ms spanned by a segment's timestamps. -/
def segmentDurationMs (seg : List (ℕ × ℚ)) : ℕ :=
  match seg with
  | [] => 0
  | r :: rs => (rs.map (·.1)).foldl Nat.max r.1 - (rs.map (·.1)).foldl Nat.min r.1

/-- Modelled from the spec, for refinement comparison with `gridResample`
(this mechanism does not appear anywhere in ingestion_sync.py): "sort by
timestamp, split into continuous segments at any gap exceeding 1 s, discard
segments whose duration exceeds 2 hours, then for each surviving segment
resample to the 50 ms grid by bucket means with linear interpolation". -/
def specSegmentResample (rows : List (ℕ × ℚ)) : List (ℕ × Option ℚ) :=
  let sorted := insertionSortBy (fun a b => decide (a.1 ≤ b.1)) rows
  ((splitSegments sorted).filter fun seg =>
    decide (segmentDurationMs seg ≤ 7200000)).flatMap gridResample

/-! ## L1 Vehicle-ID stamping (ingestion_sync.py lines 276-286)

After a file's chunks are resampled and concatenated into `df_synced`, the
code scans `['Vehicle_ID', 'vehicle_id', 'vehicle_number',
'original_vehicle_id']` for the first column present, takes that column's
value **in the first row** (`'Unknown_Car'` if the frame is empty or no such
column exists), and assigns this single value to the `Vehicle_ID` column of
every row of the file, along with the folder-derived `Track` and
`Race_Number`. -/

/-- Row of a resampled per-file frame: timestamp plus the surviving
vehicle-identifier column values (association list from column name to the
forward-filled value of that column; `none` = NaN). -/
structure SyncedRow where
  time : ℕ
  ids : List (String × Option String)
deriving DecidableEq

/-- A resampled per-file frame: its column names and rows. -/
structure SyncedFile where
  cols : List String
  rows : List SyncedRow
deriving DecidableEq

/-- Candidate vehicle-identifier column names, in the order the source scans
them. -/
def vehicleIdColumns : List String :=
  ["Vehicle_ID", "vehicle_id", "vehicle_number", "original_vehicle_id"]

/-- First candidate id column present in the file, if any. -/
def pickIdColumn (f : SyncedFile) : Option String :=
  vehicleIdColumns.find? fun c => f.cols.contains c

/-- The single vehicle id the file is stamped with: value of the picked id
column in the first row (lines 278-282), `'Unknown_Car'` when there is no id
column or no rows.  The result is `Option String` because `iloc[0]` can be
NaN. -/
def fileVehicleId (f : SyncedFile) : Option String :=
  match pickIdColumn f with
  | none => some "Unknown_Car"
  | some c =>
    match f.rows with
    | [] => some "Unknown_Car"
    | r :: _ => (r.ids.lookup c).getD none

/-- A row after the context-stamping step: `Vehicle_ID`, `Track` and
`Race_Number` have been assigned. -/
structure StampedRow where
  time : ℕ
  ids : List (String × Option String)
  vehicleID : Option String
  track : String
  race : String
deriving DecidableEq

/-- Embedding of ingestion_sync.py lines 276-286: every row of the file gets
the same `Vehicle_ID` (the file-level `fileVehicleId`), plus `Track` and
`Race_Number`. -/
def stampVehicleContext (track race : String) (f : SyncedFile) :
    List StampedRow :=
  f.rows.map fun r => ⟨r.time, r.ids, fileVehicleId f, track, race⟩

/-- Concrete two-vehicle resampled file: the `vehicle_id` column is present
and its rows carry two distinct vehicle identifiers, "7" and "12". -/
def c3file : SyncedFile :=
  ⟨["vehicle_id", "speed"],
   [⟨0, [("vehicle_id", some "7")]⟩, ⟨50, [("vehicle_id", some "12")]⟩]⟩

/-- Concrete one-column chunk for C2: two samples 2 s apart (a gap larger
than the spec's 1 s segment threshold). -/
def c2chunk : List (ℕ × ℚ) := [(0, 1), (2000, 3)]

/-! ## Decimal rendering (Python `str(n)` / `zfill`) -/

/-- Character for a single decimal digit. -/
def digitChar (d : ℕ) : Char := Char.ofNat (48 + d)

/-- Big-endian decimal digits of a natural number, with explicit fuel so the
definition is structural (any fuel above the number of digits suffices;
`natDigits` supplies `n + 1`). -/
def natDigitsAux : ℕ → ℕ → List ℕ
  | 0, _ => []
  | fuel + 1, n =>
    if n < 10 then [n] else natDigitsAux fuel (n / 10) ++ [n % 10]

/-- Big-endian decimal digits of `n`, mirroring Python `str(n)` digit by
digit (`natDigits 0 = [0]`). -/
def natDigits (n : ℕ) : List ℕ := natDigitsAux (n + 1) n

/-- Folds digits back into the number they denote. -/
def digitsVal (l : List ℕ) : ℕ := l.foldl (fun a d => 10 * a + d) 0

/-- Python `str(n).zfill(w)` as a character list: decimal digits left-padded
with '0' to width `w`. -/
def padChars (w n : ℕ) : List Char :=
  let ds := (natDigits n).map digitChar
  List.replicate (w - ds.length) '0' ++ ds

/-- Sector identifier string of sector discovery (sector_discovery.py line
138): `'S_' + str(j).zfill(3)`. -/
def sectorLabel (j : ℕ) : String := String.mk ('S' :: '_' :: padChars 3 j)

/-! ## L2 Sector discovery (backend/core_pipeline/sector_discovery.py)

The per-track body of `automated_critical_sector_discovery` (lines 91-145).
The great-circle bearing formula (`calculate_bearing`, trigonometric, lines
17-32) is abstracted as a parameter `bearing : ℚ → ℚ → ℚ → ℚ → ℚ`; all
theorems below hold for every such function, hence in particular for the
real spherical formula.  Rows carry the detected GPS latitude/longitude
columns as `lat`/`lon` (`none` = NaN). -/

/-- Row of the Master Table as seen by L2.  `sectorId` and `deltaHeading`
are the two columns L2 adds (both `none` on input). -/
structure L2Row where
  time : ℕ
  vehicle : Option String
  lat : Option ℚ
  lon : Option ℚ
  channels : List (String × Option ℚ)
  sectorId : Option String
  deltaHeading : Option ℚ
deriving DecidableEq

/-- Row has both GPS coordinates (line 101: `notna` on both columns). -/
def validGPS (r : L2Row) : Bool := r.lat.isSome && r.lon.isSome

/-- The sample data of a row, i.e. every field except the two columns L2
writes (`sectorId`, `deltaHeading`). -/
def sampleData (r : L2Row) :
    ℕ × Option String × Option ℚ × Option ℚ × List (String × Option ℚ) :=
  (r.time, r.vehicle, r.lat, r.lon, r.channels)

/-- Executable absolute value on the rationals (`np.abs` / Python `abs`);
kept as an explicit conditional so concrete runs reduce in the kernel. -/
def absQ (q : ℚ) : ℚ := if q < 0 then -q else q

/-- Median of a list of rationals (pandas median: sort, middle element for
odd length, mean of the two middle elements for even length). -/
def medianQ (l : List ℚ) : ℚ :=
  let s := insertionSortBy (fun a b => decide (a ≤ b)) l
  if s.length % 2 = 1 then s.getD (s.length / 2) 0
  else (s.getD (s.length / 2 - 1) 0 + s.getD (s.length / 2) 0) / 2

/-- Centered rolling median of window 5 with `min_periods=1` (lines 110-111):
entry `i` is the median of entries `i-2 … i+2`, clipped to the list. -/
def rollingMedian5 (l : List ℚ) : List ℚ :=
  (List.range l.length).map fun i => medianQ ((l.take (i + 3)).drop (i - 2))

/-- Latitude column of the valid-GPS rows (present by construction; the
`getD` default is never consulted). -/
def latsOf (vrows : List L2Row) : List ℚ := vrows.map fun r => r.lat.getD 0

/-- Longitude column of the valid-GPS rows. -/
def lonsOf (vrows : List L2Row) : List ℚ := vrows.map fun r => r.lon.getD 0

/-- Per-row heading (lines 114-117): bearing from the smoothed point `i` to
the smoothed point `i+1`; the last row has no successor (`shift(-1)` NaN) so
its heading is NaN. -/
def headings (bearing : ℚ → ℚ → ℚ → ℚ → ℚ) (vrows : List L2Row) :
    List (Option ℚ) :=
  let la := rollingMedian5 (latsOf vrows)
  let lo := rollingMedian5 (lonsOf vrows)
  (List.range vrows.length).map fun i =>
    if i + 1 < vrows.length then
      some (bearing (la.getD i 0) (lo.getD i 0) (la.getD (i + 1) 0)
        (lo.getD (i + 1) 0))
    else none

/-- Wrap a heading difference into (-180, 180] (lines 121-122: the two
`np.where` adjustments). -/
def wrapDelta (d : ℚ) : ℚ :=
  if 180 < d then d - 360 else if d < -180 then d + 360 else d

/-- Per-row heading delta (line 120: `diff().fillna(0)` then wrapping): row 0
and rows whose own or predecessor heading is NaN get 0. -/
def deltaHeadings (bearing : ℚ → ℚ → ℚ → ℚ → ℚ) (vrows : List L2Row) :
    List ℚ :=
  let h := headings bearing vrows
  (List.range vrows.length).map fun i =>
    match i with
    | 0 => wrapDelta 0
    | Nat.succ i' =>
      match h.getD i none, h.getD i' none with
      | some a, some b => wrapDelta (a - b)
      | _, _ => wrapDelta 0

/-- Criticality classification (line 126): `|Delta_Heading| > 0.1`. -/
def criticalFlags (bearing : ℚ → ℚ → ℚ → ℚ → ℚ) (vrows : List L2Row) :
    List Bool :=
  (deltaHeadings bearing vrows).map fun d => decide ((1 : ℚ) / 10 < absQ d)

/-- Label assignment (lines 129-140), threading the running block id `k` and
the previous row's criticality `prev`: a critical row after a non-critical
one is a rising edge and increments the block id; every critical row is
labelled with the current block id, every other row with `STRAIGHT`. -/
def labelsAux (prev : Bool) (k : ℕ) : List Bool → List String
  | [] => []
  | f :: fs =>
    if f then
      sectorLabel (if prev then k else k + 1) ::
        labelsAux true (if prev then k else k + 1) fs
    else "STRAIGHT" :: labelsAux false k fs

/-- Sector labels for a track's criticality flags (`Sector_Start` /
`cumsum` grouping of lines 129-140, started before the first row with no
previous critical row and block id 0). -/
def assignSectorIds (flags : List Bool) : List String := labelsAux false 0 flags

/-- Number of rising edges (`Sector_Start.sum`) given the previous row's
criticality. -/
def risesFrom (prev : Bool) : List Bool → ℕ
  | [] => 0
  | f :: fs => (if f && !prev then 1 else 0) + risesFrom f fs

/-- Sector labels of a track's valid-GPS rows. -/
def sectorLabels (bearing : ℚ → ℚ → ℚ → ℚ → ℚ) (vrows : List L2Row) :
    List String :=
  assignSectorIds (criticalFlags bearing vrows)

/-- Number of sectors discovered on a track. -/
def sectorCount (bearing : ℚ → ℚ → ℚ → ℚ → ℚ) (vrows : List L2Row) : ℕ :=
  risesFrom false (criticalFlags bearing vrows)

/-- Per-track body of `automated_critical_sector_discovery` (lines 91-145):
if fewer than 10 rows have both GPS coordinates the track is passed through
unchanged (lines 102-105); otherwise the rows **without** valid GPS are
dropped (line 107) and each surviving row gets its sector label and heading
delta. -/
def setLabel (r : L2Row) (p : String × ℚ) : L2Row :=
  { r with sectorId := some p.1, deltaHeading := some p.2 }

/-- Per-track processing wrapper: skip guard, row filter, label assignment
(see `setLabel` for the written columns). -/
def processTrack (bearing : ℚ → ℚ → ℚ → ℚ → ℚ) (rows : List L2Row) :
    List L2Row :=
  if (rows.filter validGPS).length < 10 then rows
  else
    let vrows := rows.filter validGPS
    List.zipWith setLabel vrows
      ((sectorLabels bearing vrows).zip (deltaHeadings bearing vrows))

/-- Constant bearing function used for concrete evaluations (the theorems
hold for every bearing function). -/
def bearing0 : ℚ → ℚ → ℚ → ℚ → ℚ := fun _ _ _ _ => 0

/-- Concrete L2 row with valid GPS at a given timestamp. -/
def l2valid (t : ℕ) : L2Row := ⟨t, some "7", some 1, some 2, [], none, none⟩

/-- Concrete L2 row missing the longitude coordinate. -/
def l2invalid (t : ℕ) : L2Row := ⟨t, some "7", some 1, none, [], none, none⟩

/-- Concrete track for C9: ten valid-GPS rows and one row with missing
longitude. -/
def c9rows : List L2Row :=
  (List.range 10).map (fun i => l2valid (50 * i)) ++ [l2invalid 500]

/-- Concrete track with only nine valid-GPS rows (below the 10-row
threshold, so L2 skips it). -/
def c9smallRows : List L2Row :=
  (List.range 9).map fun i => l2valid (50 * i)

/-! ## L3 Event detection (backend/core_pipeline/event_detection.py)

Embedding of `detect_critical_events` (lines 20-157).  Timestamps are ms
(`str(Time)` grouping of line 74 is equality of timestamps); `Sector_ID` may
be NaN (`none`).  pandas sorts with an unspecified order among tied keys
(quicksort); the insertion sorts below are stable, and none of the stated
theorems depend on the order of tied rows. -/

/-- Row of the labelled Master Table as consumed by L3. -/
structure RaceRow where
  time : ℕ
  vehicle : String
  track : String
  race : String
  sector : Option String
  lapdist : Option ℚ
deriving DecidableEq

/-- Row after normalization, ranking and per-vehicle shifting (lines 70-84):
raw and normalized lap distance, the per-timestamp rank (`Current_Position`),
the vehicle's previous rank (`Prev_Position`, NaN on its first sample) and
the per-sample lap-distance delta (`Delta_Dist`, NaN on the first sample). -/
structure PRow where
  time : ℕ
  vehicle : String
  sector : Option String
  rawLapdist : ℚ
  norm : ℚ
  pos : ℕ
  prevPos : Option ℕ
  delta : Option ℚ
deriving DecidableEq

/-- Confirmed overtake record (lines 129-140). -/
structure Event where
  time : ℕ
  winner : String
  loser : String
  sector : String
  track : String
  race : String
  lap : ℤ
  id : String
deriving DecidableEq

/-- Floating-point modulo with the divisor's sign (`np.mod`), used for lap
distance normalization (line 70). -/
def fmodQ (x L : ℚ) : ℚ := x - L * ((Rat.floor (x / L) : ℤ) : ℚ)

/-- Stable descending sort order of line 43:
`sort_values(['Time', 'Laptrigger_lapdist_dls'], ascending=False)` with NaN
lap distances last. -/
def descKeep (a b : RaceRow) : Bool :=
  if a.time = b.time then
    match a.lapdist, b.lapdist with
    | some x, some y => decide (y ≤ x)
    | some _, none => true
    | none, some _ => false
    | none, none => true
  else decide (b.time < a.time)

/-- Grouping keys of line 48, in pandas' sorted key order. -/
def raceKeys (rows : List RaceRow) : List (String × String) :=
  insertionSortBy
    (fun a b => decide (a.1 < b.1) || (a.1 == b.1 && decide (a.2 ≤ b.2)))
    ((rows.map fun r => (r.track, r.race)).dedup)

/-- Ascending stable sort by timestamp (lines 73 and 108). -/
def sortByTime {α : Type} (time : α → ℕ) (l : List α) : List α :=
  insertionSortBy (fun a b => decide (time a ≤ time b)) l

/-- Per-timestamp rank of each row (lines 74-79): rank 1 is the largest
normalized lap distance among rows sharing the timestamp, ties broken by
occurrence order (`rank(method='first', ascending=False)`). -/
def withPos (L : ℚ) (g2 : List RaceRow) : List (RaceRow × ℕ) :=
  g2.enum.map fun p =>
    (p.2, 1 + ((g2.enum.filter fun q => q.2.time == p.2.time).countP fun q =>
      decide (fmodQ (p.2.lapdist.getD 0) L < fmodQ (q.2.lapdist.getD 0) L) ||
      (decide (fmodQ (q.2.lapdist.getD 0) L = fmodQ (p.2.lapdist.getD 0) L)
        && decide (q.1 < p.1))))

/-- Rows with rank, previous rank and lap-distance delta (lines 82-84):
`Prev_Position`/`Prev_LapDist` are the vehicle's previous sample in time
order (`groupby('Vehicle_ID').shift(1)`), NaN for its first sample. -/
def positioned (L : ℚ) (g2 : List RaceRow) : List PRow :=
  let wp := withPos L g2
  wp.enum.map fun p =>
    let r := p.2.1
    let prev := (wp.take p.1).reverse.find? fun q => q.1.vehicle == r.vehicle
    { time := r.time, vehicle := r.vehicle, sector := r.sector,
      rawLapdist := r.lapdist.getD 0,
      norm := fmodQ (r.lapdist.getD 0) L,
      pos := p.2.2,
      prevPos := prev.map fun q => q.2,
      delta := prev.map fun q =>
        fmodQ (r.lapdist.getD 0) L - fmodQ (q.1.lapdist.getD 0) L }

/-- Candidate filter chain of lines 87-102, in source order: keep rows in a
critical sector (`startswith('S_')`, NaN false), then rows whose rank changed
(a NaN previous rank counts as changed), then the hysteresis filter
`|Delta_Dist| > 2` (false for a NaN delta). -/
def candidates (prows : List PRow) : List PRow :=
  (((prows.filter fun r =>
      match r.sector with
      | some s => s.startsWith "S_"
      | none => false).filter fun r =>
        decide (r.prevPos ≠ some r.pos)).filter fun r =>
          match r.delta with
          | some d => decide ((2 : ℚ) < absQ d)
          | none => false)

/-- Direction of a position change (line 109): `Current < Prev` as an
integer flag, false for a NaN previous rank. -/
def gainFlag (r : PRow) : Bool :=
  match r.prevPos with
  | some p => decide (r.pos < p)
  | none => false

/-- Splits a list into maximal runs of equal `f` value, the grouping
performed by `(Position_Change.diff() != 0).cumsum()` (line 110). -/
def runsByAux {α : Type} (f : α → Bool) (cur : Bool) (acc : List α) :
    List α → List (List α)
  | [] => [acc.reverse]
  | x :: xs =>
    if f x == cur then runsByAux f cur (x :: acc) xs
    else acc.reverse :: runsByAux f (f x) [x] xs

/-- Run-splitting entry point. -/
def runsBy {α : Type} (f : α → Bool) : List α → List (List α)
  | [] => []
  | x :: xs => runsByAux f (f x) [x] xs

/-- Candidate groups of one race (lines 108-113): candidates sorted by time
and grouped into maximal runs of equal direction. -/
def eventGroups (prows : List PRow) : List (List PRow) :=
  runsBy gainFlag (sortByTime (·.time) (candidates prows))

/-- Earliest timestamp of a group (0 for the empty group). -/
def minTimeMs : List PRow → ℕ
  | [] => 0
  | r :: rs => (rs.map (·.time)).foldl Nat.min r.time

/-- Latest timestamp of a group. -/
def maxTimeMs : List PRow → ℕ
  | [] => 0
  | r :: rs => (rs.map (·.time)).foldl Nat.max r.time

/-- Time span of a group in ms (line 117). -/
def durationMs (g : List PRow) : ℕ := maxTimeMs g - minTimeMs g

/-- Persistence check of lines 114-119: at least two samples and a span of
at least 0.3 s. -/
def confirmGroup (g : List PRow) : Bool :=
  decide (2 ≤ g.length) && decide (300 ≤ durationMs g)

/-- Event construction from a confirmed group (lines 122-140): sort the
group by rank; the winner is the first row (best rank), the loser the last;
the lap number is `floor(raw lap distance / track length) + 1` from the
winner's row; the composite id concatenates sector, lap, winner and loser —
it contains no track or race component. -/
def buildEvent (track race : String) (L : ℚ) (g : List PRow) : Option Event :=
  match insertionSortBy (fun a b => decide (a.pos ≤ b.pos)) g with
  | [] => none
  | w :: rest =>
    some { time := w.time, winner := w.vehicle,
           loser := ((w :: rest).getLast (List.cons_ne_nil w rest)).vehicle,
           sector := w.sector.getD "", track := track, race := race,
           lap := Rat.floor (w.rawLapdist / L) + 1,
           id := w.sector.getD "" ++ "_L"
             ++ toString (Rat.floor (w.rawLapdist / L) + 1) ++ "_WIN"
             ++ w.vehicle ++ "_LOS"
             ++ ((w :: rest).getLast (List.cons_ne_nil w rest)).vehicle }

/-- Appends a group's event unless its composite id was already emitted in
this race (lines 142-144). -/
def appendEvent (track race : String) (L : ℚ) (acc : List Event)
    (g : List PRow) : List Event :=
  match buildEvent track race L g with
  | none => acc
  | some e =>
    if (acc.map (·.id)).contains e.id then acc else acc ++ [e]

/-- Events of one race from its positioned rows: confirmed groups folded
with per-race duplicate suppression. -/
def raceEvents (track race : String) (L : ℚ) (prows : List PRow) :
    List Event :=
  ((eventGroups prows).filter confirmGroup).foldl (appendEvent track race L) []

/-- Per-race body of `detect_critical_events` (lines 48-154): drop NaN lap
distances, skip short groups (< 100 rows) and short tracks (max lap distance
NaN or < 1000), then normalize, sort by time, rank and scan. -/
def detectRace (track race : String) (g0 : List RaceRow) : List Event :=
  if (g0.filter fun r => r.lapdist.isSome).length < 100 then []
  else
    match ratMaxOpt ((g0.filter fun r => r.lapdist.isSome).filterMap
        fun r => r.lapdist) with
    | none => []
    | some L =>
      if L < 1000 then []
      else
        raceEvents track race L
          (positioned L (sortByTime (·.time)
            (g0.filter fun r => r.lapdist.isSome)))

/-- Embedding of `detect_critical_events` (lines 20-157): globally sort
descending by (time, lap distance), group by (track, race) in sorted key
order, and concatenate the per-race event lists. -/
def detect_critical_events (rows : List RaceRow) : List Event :=
  let sorted := insertionSortBy descKeep rows
  (raceKeys rows).flatMap fun k =>
    detectRace k.1 k.2 (sorted.filter fun r => r.track == k.1 && r.race == k.2)

/-- Lap distance of vehicle "7" in the C4 scenario: advances 10 m per 50 ms
step, with a small 1 m step at i = 15 (below the hysteresis buffer) and
rank-changing crossings at i = 10, 15 and 20. -/
def aDist (i : ℕ) : ℚ :=
  if i < 10 then 100 + 10 * i
  else if i < 15 then 200 + 10 * (i - 10)
  else if i < 20 then 241 + 10 * (i - 15)
  else 291 + 10 * (i - 20)

/-- Lap distance of vehicle "12" in the C4 scenario: ahead of "7" for
i < 10 and 15 ≤ i < 20, behind otherwise; its final sample (2000) fixes the
estimated track length. -/
def bDist (i : ℕ) : ℚ :=
  if i < 10 then 105 + 10 * i
  else if i < 15 then 199 + 9 * (i - 10)
  else if i < 20 then 300 + 10 * (i - 15)
  else if i < 49 then 280 + 9 * (i - 20)
  else 2000

/-- One race of the C4 scenario: 50 timestamps, two vehicles; vehicle "7"
always inside critical sector `S_001`, vehicle "12" always on a straight. -/
def c4race (raceName : String) : List RaceRow :=
  (List.range 50).flatMap fun i =>
    [⟨50 * i, "7", "Barber", raceName, some "S_001", some (aDist i)⟩,
     ⟨50 * i, "12", "Barber", raceName, some "STRAIGHT", some (bDist i)⟩]

/-- Two identical races (different race numbers) for the C4 counterexample. -/
def c4input : List RaceRow := c4race "R1" ++ c4race "R2"

/-- Concrete candidate group for the C8 witness: two same-direction
candidate rows of one vehicle, 500 ms apart. -/
def c8prows : List PRow :=
  [⟨500, "7", some "S_001", 200, 200, 1, some 2, some 10⟩,
   ⟨1000, "7", some "S_001", 291, 291, 1, some 2, some 10⟩]

/-! ## L4 Causal analysis (backend/core_pipeline/causal_analysis.py)

Per-event body of `run_causal_analysis` (lines 44-161).  Timestamps are
ms as signed integers (so the ±1.5 s window never truncates); channel
values are `Option ℚ` with `none` = NaN.  Column presence
(`'pbrake_f' in winner_data.columns` etc.) is a property of the master
table, shared by every slice, and is carried as three Booleans.  The
master is assumed time-sorted so the `.loc[start:end]` label slice equals
the corresponding boolean filter.  An all-NaN `Gear` column on a nonempty
slice makes `mode().iloc[0]` raise `IndexError` (line 130); that path is
the `Except.error` case. -/

/-- Row of the Master Table as consumed by L4. -/
structure L4Row where
  time : ℤ
  vehicle : String
  sector : Option String
  pbrake : Option ℚ
  ath : Option ℚ
  gear : Option ℚ
  lapdist : Option ℚ
deriving DecidableEq

/-- Master table with its column-presence flags. -/
structure L4Table where
  hasPbrake : Bool
  hasAth : Bool
  hasGear : Bool
  rows : List L4Row
deriving DecidableEq

/-- Event record as read from L3's output. -/
structure L3EventIn where
  time : ℤ
  winner : String
  loser : String
  sector : String
deriving DecidableEq

/-- Reason fields written by L4: the reason code string and, when one is
produced, the two-decimal `Reason_Value` string. -/
structure AnalyzedEvent where
  code : String
  value : Option String
deriving DecidableEq

/-- The six documented reason codes. -/
def reasonCodes : List String :=
  ["Brake_Pressure_Delta", "Brake_Timing_Delta", "Throttle_Commit_Delta",
   "Gear_Delta", "Data_Missing", "Invalid_Sector"]

/-- Fixed iteration order of the four delta codes (dict insertion order of
lines 140-145). -/
def orderIdx (s : String) : ℕ :=
  if s = "Brake_Pressure_Delta" then 0
  else if s = "Brake_Timing_Delta" then 1
  else if s = "Throttle_Commit_Delta" then 2
  else if s = "Gear_Delta" then 3
  else 4

/-- Window slice of lines 63-71: rows of one vehicle in the event's sector
within ±1.5 s of the event timestamp (label slicing is inclusive at both
ends). -/
def sliceFor (tbl : L4Table) (vid sid : String) (t : ℤ) : List L4Row :=
  tbl.rows.filter fun r =>
    r.vehicle == vid && r.sector == some sid
      && decide (t - 1500 ≤ r.time) && decide (r.time ≤ t + 1500)

/-- Embedding of `find_brake_start_dist` (lines 16-27): among rows strictly
before the event with brake pressure above 0.5 bar, the earliest one's lap
distance (the source reverses and takes `iloc[-1]`, which is that same
earliest row); NaN when no row qualifies or its lap distance is NaN. -/
def find_brake_start_dist (rows : List L4Row) (t : ℤ) : Option ℚ :=
  ((rows.filter fun r =>
      decide (r.time < t) &&
        match r.pbrake with
        | some p => decide ((1 : ℚ) / 2 < p)
        | none => false).head?).bind fun r => r.lapdist

/-- Seconds from the window start to the first sample with throttle at or
above 95 % (lines 108-117); `none` when the threshold is never reached. -/
def timeToHighAth (rows : List L4Row) (t : ℤ) : Option ℚ :=
  ((rows.filter fun r =>
      match r.ath with
      | some a => decide ((95 : ℚ) ≤ a)
      | none => false).head?).map fun r => ((r.time - (t - 1500) : ℤ) : ℚ) / 1000

/-- NaN-propagating subtraction (float semantics). -/
def subOpt (a b : Option ℚ) : Option ℚ :=
  match a, b with
  | some x, some y => some (x - y)
  | _, _ => none

/-- Minimum of a nonempty list of rationals. -/
def ratMinOpt (l : List ℚ) : Option ℚ :=
  match l with
  | [] => none
  | x :: xs => some (xs.foldl min x)

/-- pandas `Series.mode().iloc[0]`: the smallest among the most frequent
non-NaN values; `none` signals the `IndexError` on an all-NaN column. -/
def modeMin (vals : List ℚ) : Option ℚ :=
  match vals with
  | [] => none
  | v :: vs =>
    ratMinOpt ((v :: vs).filter fun x =>
      ((v :: vs).map fun y => (v :: vs).count y).foldl Nat.max 0
        = (v :: vs).count x)

/-- The four control-input deltas of one event (lines 80-134). -/
structure Deltas where
  bp : Option ℚ
  bt : Option ℚ
  tc : Option ℚ
  gd : Option ℚ
deriving DecidableEq

/-- Delta computation of lines 80-134 on the two window slices.  With the
relevant column absent, a delta defaults to 0.0; with the column present,
NaN propagates through peaks and means, the brake-timing and
throttle-commit computations have their explicit fallbacks, and an all-NaN
gear column raises (the `Except.error` case). -/
def computeDeltas (tbl : L4Table) (w l : List L4Row) (t : ℤ) :
    Except Unit Deltas :=
  if tbl.hasGear then
    match modeMin (w.filterMap (·.gear)), modeMin (l.filterMap (·.gear)) with
    | some wm, some lm =>
      Except.ok
        ⟨if tbl.hasPbrake then
            subOpt (ratMaxOpt (w.filterMap (·.pbrake)))
              (ratMaxOpt (l.filterMap (·.pbrake)))
          else some 0,
         if tbl.hasPbrake then
            match find_brake_start_dist w t, find_brake_start_dist l t with
            | some a, some b => some (b - a)
            | _, _ => some 0
          else some 0,
         if tbl.hasAth then
            match timeToHighAth w t, timeToHighAth l t with
            | some a, some b => some (b - a)
            | _, _ =>
              subOpt (ratMean (w.filterMap (·.ath)))
                (ratMean (l.filterMap (·.ath)))
          else some 0,
         some (wm - lm)⟩
    | _, _ => Except.error ()
  else
    Except.ok
      ⟨if tbl.hasPbrake then
          subOpt (ratMaxOpt (w.filterMap (·.pbrake)))
            (ratMaxOpt (l.filterMap (·.pbrake)))
        else some 0,
       if tbl.hasPbrake then
          match find_brake_start_dist w t, find_brake_start_dist l t with
          | some a, some b => some (b - a)
          | _, _ => some 0
        else some 0,
       if tbl.hasAth then
          match timeToHighAth w t, timeToHighAth l t with
          | some a, some b => some (b - a)
          | _, _ =>
            subOpt (ratMean (w.filterMap (·.ath)))
              (ratMean (l.filterMap (·.ath)))
        else some 0,
       some 0⟩

/-- The normalized-magnitude dictionary of lines 140-145, in insertion
order; a NaN delta yields a NaN magnitude. -/
def magList (d : Deltas) : List (String × Option ℚ) :=
  [("Brake_Pressure_Delta", d.bp.map fun x => absQ (x * 10)),
   ("Brake_Timing_Delta", d.bt.map fun x => absQ (x * (1 / 2))),
   ("Throttle_Commit_Delta", d.tc.map fun x => absQ (x * (1 / 10))),
   ("Gear_Delta", d.gd.map fun x => absQ (x * 5))]

/-- Float `>` on possibly-NaN magnitudes: false whenever either side is
NaN. -/
def cmpGTOpt (a b : Option ℚ) : Bool :=
  match a, b with
  | some x, some y => decide (y < x)
  | _, _ => false

/-- Python `max(magnitudes, key=magnitudes.get)` (line 147): scan in
insertion order, replacing the current best only on a strictly greater
magnitude, so the first maximal key wins and NaN comparisons never
replace. -/
def primaryPair (d : Deltas) : String × Option ℚ :=
  match magList d with
  | [] => ("Brake_Pressure_Delta", none)
  | x :: xs => xs.foldl (fun acc y => if cmpGTOpt y.2 acc.2 then y else acc) x

/-- The raw deltas keyed by reason code (the `deltas` dict). -/
def deltaList (d : Deltas) : List (String × Option ℚ) :=
  [("Brake_Pressure_Delta", d.bp), ("Brake_Timing_Delta", d.bt),
   ("Throttle_Commit_Delta", d.tc), ("Gear_Delta", d.gd)]

/-- `deltas.get(primary_reason, 0)` (line 148): the raw signed delta of the
chosen code. -/
def reasonValueOf (d : Deltas) (name : String) : Option ℚ :=
  ((deltaList d).lookup name).getD (some 0)

/-- Python `f"{v:.2f}"` on a possibly-NaN value: `nan`, or sign and decimal
digits with exactly two fractional digits.  (Python rounds half to even on
the binary double; the rounding mode is irrelevant to every property stated
here, and half-up on the magnitude is used.) -/
def formatTwoDec (q : Option ℚ) : String :=
  match q with
  | none => "nan"
  | some x =>
    String.mk ((if x < 0 then ['-'] else []) ++
      (natDigits ((Rat.floor (absQ x * 100 + 1 / 2)).toNat / 100)).map digitChar
      ++ '.' :: padChars 2 ((Rat.floor (absQ x * 100 + 1 / 2)).toNat % 100))

/-- Checker for an unsigned decimal with exactly two fractional digits. -/
def unsignedTwoDec (l : List Char) : Bool :=
  decide (l.takeWhile (fun c => c.isDigit) ≠ []) &&
    match l.dropWhile (fun c => c.isDigit) with
    | '.' :: d1 :: d2 :: [] => d1.isDigit && d2.isDigit
    | _ => false

/-- Checker for a signed decimal with exactly two fractional digits. -/
def isSignedTwoDec (s : String) : Bool :=
  match s.data with
  | [] => false
  | c :: rest =>
    if c = '-' then unsignedTwoDec rest else unsignedTwoDec (c :: rest)

/-- Per-event body of `run_causal_analysis` (lines 44-161): an invalid or
missing sector id tags `Invalid_Sector` with no `Reason_Value` (an empty
sector id fails `startswith` as well, matching `if not sector_id or not
sector_id.startswith('S_')`); an empty winner or loser slice tags
`Data_Missing` with no `Reason_Value`; otherwise the deltas are computed,
ranked, and the chosen raw delta is stored formatted to two decimals. -/
def run_causal_event (tbl : L4Table) (e : L3EventIn) :
    Except Unit AnalyzedEvent :=
  if e.sector.startsWith "S_" = false then
    Except.ok ⟨"Invalid_Sector", none⟩
  else if ((sliceFor tbl e.winner e.sector e.time).isEmpty
      || (sliceFor tbl e.loser e.sector e.time).isEmpty) then
    Except.ok ⟨"Data_Missing", none⟩
  else
    (computeDeltas tbl (sliceFor tbl e.winner e.sector e.time)
      (sliceFor tbl e.loser e.sector e.time) e.time).map fun d =>
      ⟨(primaryPair d).1, some (formatTwoDec (reasonValueOf d (primaryPair d).1))⟩

/-- Concrete master table for the C7 counterexample: `pbrake_f` and `ath`
columns present, `Gear` absent; both rows carry NaN brake pressure; the
winner reaches 95 % throttle 2 s before the loser. -/
def c7table : L4Table :=
  ⟨true, true, false,
   [⟨9000, "7", some "S_001", none, some 96, none, some 500⟩,
    ⟨11000, "12", some "S_001", none, some 95, none, some 480⟩]⟩

/-- Concrete overtake event at t = 10 s for the C7 counterexample. -/
def c7event : L3EventIn := ⟨10000, "7", "12", "S_001"⟩

/-- Deltas the C7 counterexample produces: NaN brake pressure, zero brake
timing and gear deltas, and a 2 s throttle-commit delta. -/
def c7deltas : Deltas := ⟨none, some 0, some 2, some 0⟩

/-- Concrete master table for C10: all three control channels absent, one
row per vehicle inside the event's sector and window. -/
def c10table : L4Table :=
  ⟨false, false, false,
   [⟨10000, "7", some "S_001", none, none, none, none⟩,
    ⟨10000, "12", some "S_001", none, none, none, none⟩]⟩

/-- Concrete event for the C10 witness. -/
def c10event : L3EventIn := ⟨10000, "7", "12", "S_001"⟩

/-! ## Theorems -/

/-- Linear interpolation preserves the length of the series. -/
theorem interpolateBoth_length (l : List (Option ℚ)) :
    (interpolateBoth l).length = l.length := by
  simp [interpolateBoth]

/-- Auxiliary: a list of pairs whose first components are `50 * (b0 + i)` for
`i = 0, …, k` is a 50 ms chain. -/
theorem zipRange_chain (b0 k : ℕ) (l₂ : List (Option ℚ))
    (hlen : k + 1 ≤ l₂.length) :
    List.Chain' (fun a b : ℕ × Option ℚ => b.1 = a.1 + 50)
      (((((List.range (k + 1)).map fun i => b0 + i).map fun b => 50 * b)).zip
        l₂) := by
  have hlen1 :
      ((((List.range (k + 1)).map fun i => b0 + i).map
        fun b => 50 * b)).length ≤ l₂.length := by
    simpa using hlen
  have h1 :
      ((((((List.range (k + 1)).map fun i => b0 + i).map
        fun b => 50 * b)).zip l₂).map Prod.fst)
        = (((List.range (k + 1)).map fun i => b0 + i).map fun b => 50 * b) :=
    List.map_fst_zip _ _ hlen1
  have h2 : List.Chain' (fun x y : ℕ => y = x + 50)
      (((List.range (k + 1)).map fun i => b0 + i).map fun b => 50 * b) := by
    rw [List.map_map, List.chain'_map, List.chain'_range_succ]
    intro m _
    simp only [Function.comp_apply]
    omega
  have h3 : List.Chain' (fun x y : ℕ => y = x + 50)
      ((((((List.range (k + 1)).map fun i => b0 + i).map
        fun b => 50 * b)).zip l₂).map Prod.fst) := by
    rw [h1]
    exact h2
  exact (List.chain'_map Prod.fst).mp h3

/-- Claim C2, amended: within one chunk of one input file, the resampled
output of L1 lies on a uniform 50 ms grid (consecutive output timestamps
differ by exactly 50 ms), produced by 50 ms bucket means over the chunk's
full time range with interior linear interpolation and nearest-valid edge
fill.  No splitting into segments at 1 s gaps and no discarding of 2-hour
segments takes place — gaps of any size inside a chunk are bridged by
interpolation — and the 50 ms cadence is not guaranteed across chunk or file
boundaries of a (race, vehicle) partition. -/
theorem C2_amended (rows : List (ℕ × ℚ)) (h : rows ≠ []) :
    List.Chain' (fun a b : ℕ × Option ℚ => b.1 = a.1 + 50)
      (gridResample rows) := by
  match rows with
  | [] => exact absurd rfl h
  | r :: rs =>
    show List.Chain' _
      ((((List.range (lastBucket r rs - firstBucket r rs + 1)).map
        fun i => firstBucket r rs + i).map fun b => 50 * b).zip
        (interpolateBoth
          (((List.range (lastBucket r rs - firstBucket r rs + 1)).map
            fun i => firstBucket r rs + i).map
            fun b => bucketMean (r :: rs) b)))
    exact zipRange_chain (firstBucket r rs) (lastBucket r rs - firstBucket r rs)
      _ (by simp [interpolateBoth_length])

/-- Witness for C2_amended on a concrete nonempty chunk. -/
theorem C2_witness :
    ([((0 : ℕ), (1 : ℚ))] ≠ []) ∧
    List.Chain' (fun a b : ℕ × Option ℚ => b.1 = a.1 + 50)
      (gridResample [((0 : ℕ), (1 : ℚ))]) :=
  ⟨by decide, C2_amended [((0 : ℕ), (1 : ℚ))] (by decide)⟩

/-- Claim C2, counterexample to the claimed mechanism: on the concrete chunk
`c2chunk` (two samples 2 s apart) the code's resampling emits 41 rows — one
per 50 ms bucket across the gap, interpolated — whereas the spec's mechanism
(split into continuous segments at gaps exceeding 1 s, resample each segment)
would emit 2 rows.  The segment-splitting/2-hour-discard mechanism is absent
from ingestion_sync.py. -/
theorem C2_counterexample :
    (gridResample c2chunk).length = 41 ∧
    (specSegmentResample c2chunk).length = 2 := by
  constructor
  · rfl
  · rfl

/-! ### Decimal rendering lemmas -/

/-- Appending a digit multiplies the denoted value by ten and adds it. -/
theorem digitsVal_append_single (l : List ℕ) (d : ℕ) :
    digitsVal (l ++ [d]) = 10 * digitsVal l + d := by
  simp [digitsVal, List.foldl_append]

/-- With sufficient fuel, the digit list denotes the number itself. -/
theorem natDigitsAux_val :
    ∀ (fuel n : ℕ), n < fuel → digitsVal (natDigitsAux fuel n) = n := by
  intro fuel
  induction fuel with
  | zero => intro n h; omega
  | succ fuel ih =>
    intro n h
    by_cases h10 : n < 10
    · simp [natDigitsAux, h10, digitsVal]
    · have hdiv : n / 10 < fuel := by omega
      simp only [natDigitsAux, h10, if_false, digitsVal_append_single,
        ih (n / 10) hdiv]
      omega

/-- Digit-list round trip for `natDigits`. -/
theorem natDigits_val (n : ℕ) : digitsVal (natDigits n) = n :=
  natDigitsAux_val (n + 1) n (Nat.lt_succ_self n)

/-- Decimal digit lists determine the number. -/
theorem natDigits_inj {m n : ℕ} (h : natDigits m = natDigits n) : m = n := by
  rw [← natDigits_val m, ← natDigits_val n, h]

/-- Every produced digit is below ten. -/
theorem natDigitsAux_lt10 :
    ∀ (fuel n d : ℕ), d ∈ natDigitsAux fuel n → d < 10 := by
  intro fuel
  induction fuel with
  | zero => intro n d h; simp [natDigitsAux] at h
  | succ fuel ih =>
    intro n d h
    by_cases h10 : n < 10
    · simp [natDigitsAux, h10] at h
      omega
    · simp only [natDigitsAux, h10, if_false, List.mem_append,
        List.mem_singleton] at h
      rcases h with h | h
      · exact ih _ _ h
      · omega

/-- The digit list of a number below the fuel is nonempty. -/
theorem natDigitsAux_ne_nil :
    ∀ (fuel n : ℕ), n < fuel → natDigitsAux fuel n ≠ [] := by
  intro fuel
  induction fuel with
  | zero => intro n h; omega
  | succ fuel _ =>
    intro n _
    by_cases h10 : n < 10
    · simp [natDigitsAux, h10]
    · simp [natDigitsAux, h10]

/-- The leading digit of a positive number is nonzero. -/
theorem natDigitsAux_head_pos :
    ∀ (fuel n : ℕ), n < fuel → 1 ≤ n →
      ∀ d, (natDigitsAux fuel n).head? = some d → 1 ≤ d := by
  intro fuel
  induction fuel with
  | zero => intro n h; omega
  | succ fuel ih =>
    intro n hn h1 d hd
    by_cases h10 : n < 10
    · simp [natDigitsAux, h10] at hd
      omega
    · have hdiv : n / 10 < fuel := by omega
      have hpos : 1 ≤ n / 10 := by omega
      obtain ⟨a, as, ha⟩ :=
        List.exists_cons_of_ne_nil (natDigitsAux_ne_nil fuel (n / 10) hdiv)
      simp only [natDigitsAux, h10, if_false, ha, List.cons_append,
        List.head?_cons, Option.some.injEq] at hd
      have := ih (n / 10) hdiv hpos a (by rw [ha]; rfl)
      omega

/-- Distinct decimal digits give distinct characters. -/
theorem digitChar_inj {a b : ℕ} (ha : a < 10) (hb : b < 10)
    (h : digitChar a = digitChar b) : a = b := by
  interval_cases a <;> interval_cases b <;> first | rfl | exact absurd h (by decide)

/-- A nonzero decimal digit does not render as the character '0'. -/
theorem digitChar_ne_zero {d : ℕ} (h1 : 1 ≤ d) (h10 : d < 10) :
    digitChar d ≠ '0' := by
  interval_cases d <;> decide

/-- Rendering digit lists to characters is injective on digit lists. -/
theorem mapDigitChar_inj :
    ∀ (l₁ l₂ : List ℕ), (∀ d ∈ l₁, d < 10) → (∀ d ∈ l₂, d < 10) →
      l₁.map digitChar = l₂.map digitChar → l₁ = l₂ := by
  intro l₁
  induction l₁ with
  | nil => intro l₂ _ _ h; cases l₂ <;> simp_all
  | cons a as ih =>
    intro l₂ h₁ h₂ h
    cases l₂ with
    | nil => simp at h
    | cons b bs =>
      simp only [List.map_cons, List.cons.injEq] at h
      have hab : a = b :=
        digitChar_inj (h₁ a (by simp)) (h₂ b (by simp)) h.1
      have : as = bs :=
        ih bs (fun d hd => h₁ d (by simp [hd])) (fun d hd => h₂ d (by simp [hd]))
          h.2
      rw [hab, this]

/-- Dropping leading '0' characters skips a zero-padding block. -/
theorem dropWhile_replicate_zero :
    ∀ (k : ℕ) (l : List Char),
      ((List.replicate k '0') ++ l).dropWhile (· == '0')
        = l.dropWhile (· == '0') := by
  intro k
  induction k with
  | zero => intro l; simp
  | succ k ih =>
    intro l
    simp only [List.replicate_succ, List.cons_append]
    exact ih l

/-- The rendered digits of a positive number survive leading-zero removal. -/
theorem dropWhile_digits {n : ℕ} (h : 1 ≤ n) :
    ((natDigits n).map digitChar).dropWhile (· == '0')
      = (natDigits n).map digitChar := by
  obtain ⟨a, as, ha⟩ :=
    List.exists_cons_of_ne_nil (natDigitsAux_ne_nil (n + 1) n (Nat.lt_succ_self n))
  have ha1 : 1 ≤ a :=
    natDigitsAux_head_pos (n + 1) n (Nat.lt_succ_self n) h a
      (by rw [show natDigitsAux (n + 1) n = a :: as from ha]; rfl)
  have ha10 : a < 10 :=
    natDigitsAux_lt10 (n + 1) n a (by rw [ha]; simp)
  show ((natDigits n).map digitChar).dropWhile (· == '0') = _
  rw [show natDigits n = a :: as from ha]
  simp only [List.map_cons, List.dropWhile_cons]
  have : (digitChar a == '0') = false := by
    simpa using digitChar_ne_zero ha1 ha10
  rw [this]
  simp

/-- Zero-padded positive numbers render injectively. -/
theorem padChars3_inj {a b : ℕ} (ha : 1 ≤ a) (hb : 1 ≤ b)
    (h : padChars 3 a = padChars 3 b) : a = b := by
  have h2 := congrArg (List.dropWhile (· == '0')) h
  simp only [padChars, dropWhile_replicate_zero] at h2
  rw [dropWhile_digits ha, dropWhile_digits hb] at h2
  exact natDigits_inj (mapDigitChar_inj _ _
    (fun d hd => natDigitsAux_lt10 _ _ d hd)
    (fun d hd => natDigitsAux_lt10 _ _ d hd) h2)

/-- Sector labels of positive ordinals are injective. -/
theorem sectorLabel_inj_pos {a b : ℕ} (ha : 1 ≤ a) (hb : 1 ≤ b)
    (h : sectorLabel a = sectorLabel b) : a = b := by
  have h2 : ('S' :: '_' :: padChars 3 a) = ('S' :: '_' :: padChars 3 b) :=
    congrArg String.data h
  injection h2 with _ h3
  injection h3 with _ h4
  exact padChars3_inj ha hb h4

/-- A positive sector label differs from the (never produced) label 0. -/
theorem sectorLabel_ne_zero {j : ℕ} (hj : 1 ≤ j) :
    sectorLabel j ≠ sectorLabel 0 := by
  intro h
  have h2 : ('S' :: '_' :: padChars 3 j) = ('S' :: '_' :: padChars 3 0) :=
    congrArg String.data h
  injection h2 with _ h3
  injection h3 with _ h4
  have h5 := congrArg (List.dropWhile (· == '0')) h4
  simp only [padChars, dropWhile_replicate_zero] at h5
  rw [dropWhile_digits hj] at h5
  have h6 : (natDigits 0).map digitChar = ['0'] := rfl
  rw [h6] at h5
  have h7 : (['0'].dropWhile (· == '0')) = ([] : List Char) := rfl
  rw [h7] at h5
  have h8 : natDigits j ≠ [] :=
    natDigitsAux_ne_nil (j + 1) j (Nat.lt_succ_self j)
  obtain ⟨a, as, ha⟩ := List.exists_cons_of_ne_nil h8
  rw [show natDigits j = a :: as from ha] at h5
  simp at h5

/-- Characterization of sector label equality for a positive left ordinal. -/
theorem sectorLabel_eq_iff {j : ℕ} (hj : 1 ≤ j) (k : ℕ) :
    sectorLabel j = sectorLabel k ↔ j = k := by
  constructor
  · intro h
    cases k with
    | zero => exact absurd h (sectorLabel_ne_zero hj)
    | succ k => exact sectorLabel_inj_pos hj (Nat.succ_le_succ (Nat.zero_le k)) h
  · intro h; rw [h]

/-- The straight label is never a sector label. -/
theorem straight_ne_sectorLabel (j : ℕ) : "STRAIGHT" ≠ sectorLabel j := by
  intro h
  have h2 : ('S' :: 'T' :: 'R' :: 'A' :: 'I' :: 'G' :: 'H' :: 'T' :: [])
      = ('S' :: '_' :: padChars 3 j) := congrArg String.data h
  injection h2 with _ h3
  injection h3 with h4 _
  exact absurd h4 (by decide)

/-! ### Sector label assignment lemmas -/

/-- Unfolding of the label assignment at a non-critical row. -/
theorem labelsAux_cons_false (prev : Bool) (k : ℕ) (fs : List Bool) :
    labelsAux prev k (false :: fs) = "STRAIGHT" :: labelsAux false k fs := rfl

/-- Unfolding of the label assignment at a critical row. -/
theorem labelsAux_cons_true (prev : Bool) (k : ℕ) (fs : List Bool) :
    labelsAux prev k (true :: fs)
      = sectorLabel (if prev then k else k + 1) ::
          labelsAux true (if prev then k else k + 1) fs := by
  cases prev <;> rfl

/-- Label assignment preserves the number of rows. -/
theorem labelsAux_length :
    ∀ (fs : List Bool) (prev : Bool) (k : ℕ),
      (labelsAux prev k fs).length = fs.length := by
  intro fs
  induction fs with
  | nil => intro prev k; rfl
  | cons f fs ih =>
    intro prev k
    cases f
    · simp [labelsAux_cons_false, ih]
    · cases prev <;> simp [labelsAux_cons_true, ih]

/-- Membership of a sector label in the assignment: label `j` occurs either
as the continuation of the already-open block `k` (when the previous row was
critical and the next row is critical too) or as one of the blocks opened by
the rising edges that follow. -/
theorem sectorLabel_mem_labelsAux {j : ℕ} (hj : 1 ≤ j) :
    ∀ (fs : List Bool) (prev : Bool) (k : ℕ),
      sectorLabel j ∈ labelsAux prev k fs ↔
        ((prev = true ∧ fs.head? = some true ∧ j = k) ∨
         (k + 1 ≤ j ∧ j ≤ k + risesFrom prev fs)) := by
  intro fs
  induction fs with
  | nil =>
    intro prev k
    simp only [labelsAux, List.not_mem_nil, risesFrom, List.head?_nil,
      false_iff]
    rintro (⟨_, h, _⟩ | h)
    · exact Option.noConfusion h
    · omega
  | cons f fs ih =>
    intro prev k
    cases f
    · rw [labelsAux_cons_false, List.mem_cons, ih false k]
      have hE : risesFrom prev (false :: fs) = risesFrom false fs := by
        simp [risesFrom]
      constructor
      · rintro (h | h)
        · exact absurd h.symm (straight_ne_sectorLabel j)
        · rcases h with ⟨hf, _⟩ | ⟨hr1, hr2⟩
          · exact absurd hf (by simp)
          · exact Or.inr ⟨hr1, by omega⟩
      · rintro (⟨_, hh, _⟩ | ⟨hr1, hr2⟩)
        · exact absurd hh (by simp)
        · exact Or.inr (Or.inr ⟨hr1, by omega⟩)
    · cases prev
      · have hcons : labelsAux false k (true :: fs)
            = sectorLabel (k + 1) :: labelsAux true (k + 1) fs := rfl
        rw [hcons, List.mem_cons, ih true (k + 1), sectorLabel_eq_iff hj]
        have hE : risesFrom false (true :: fs) = 1 + risesFrom true fs := by
          simp [risesFrom]
        constructor
        · rintro (h | ⟨_, _, h⟩ | ⟨h1, h2⟩)
          · exact Or.inr ⟨by omega, by omega⟩
          · exact Or.inr ⟨by omega, by omega⟩
          · exact Or.inr ⟨by omega, by omega⟩
        · rintro (⟨hf, _, _⟩ | ⟨h1, h2⟩)
          · exact absurd hf (by simp)
          · by_cases hjk : j = k + 1
            · exact Or.inl hjk
            · exact Or.inr (Or.inr ⟨by omega, by omega⟩)
      · have hcons : labelsAux true k (true :: fs)
            = sectorLabel k :: labelsAux true k fs := rfl
        rw [hcons, List.mem_cons, ih true k, sectorLabel_eq_iff hj]
        have hE : risesFrom true (true :: fs) = risesFrom true fs := by
          simp [risesFrom]
        constructor
        · rintro (h | ⟨_, _, h⟩ | ⟨h1, h2⟩)
          · exact Or.inl ⟨rfl, rfl, h⟩
          · exact Or.inl ⟨rfl, rfl, h⟩
          · exact Or.inr ⟨h1, by omega⟩
        · rintro (⟨_, _, h⟩ | ⟨h1, h2⟩)
          · exact Or.inl h
          · exact Or.inr (Or.inr ⟨h1, by omega⟩)

/-- Occurrences of a fixed sector label in the assignment form one
contiguous run (possibly empty): the assignment splits as a prefix and a
suffix avoiding the label around one replicated block. -/
theorem labelsAux_single_run {j : ℕ} (hj : 1 ≤ j) :
    ∀ (fs : List Bool) (prev : Bool) (k : ℕ),
      ∃ a m c, labelsAux prev k fs
          = a ++ List.replicate m (sectorLabel j) ++ c ∧
        sectorLabel j ∉ a ∧ sectorLabel j ∉ c := by
  intro fs
  induction fs with
  | nil => intro prev k; exact ⟨[], 0, [], rfl, by simp, by simp⟩
  | cons f fs ih =>
    intro prev k
    cases f
    · obtain ⟨a, m, c, he, ha, hc⟩ := ih false k
      refine ⟨"STRAIGHT" :: a, m, c, ?_, ?_, hc⟩
      · rw [labelsAux_cons_false, he]; rfl
      · intro hmem
        rcases List.mem_cons.mp hmem with h | h
        · exact straight_ne_sectorLabel j h.symm
        · exact ha h
    · rw [labelsAux_cons_true]
      by_cases hjK : j = (if prev then k else k + 1)
      · rw [← hjK]
        by_cases hmem : sectorLabel j ∈ labelsAux true j fs
        · have hhead : fs.head? = some true := by
            rcases (sectorLabel_mem_labelsAux hj fs true j).mp hmem with
              ⟨_, hh, _⟩ | ⟨h1, _⟩
            · exact hh
            · omega
          obtain ⟨fs', hfs⟩ : ∃ fs', fs = true :: fs' := by
            cases fs with
            | nil => exact absurd hhead (by simp)
            | cons b fs' =>
              cases b
              · exact absurd hhead (by simp)
              · exact ⟨fs', rfl⟩
          obtain ⟨a, m, c, he, ha, hc⟩ := ih true j
          have hrest : labelsAux true j fs
              = sectorLabel j :: labelsAux true j fs' := by
            rw [hfs]; rfl
          have ha0 : a = [] := by
            rcases a with _ | ⟨x, a'⟩
            · rfl
            · exfalso
              have hx : x = sectorLabel j := by
                have h2 := he.symm.trans hrest
                simpa using congrArg List.head? h2
              exact ha (by rw [hx]; exact List.mem_cons_self _ _)
          refine ⟨[], m + 1, c, ?_, by simp, hc⟩
          rw [he, ha0, List.replicate_succ]
          rfl
        · exact ⟨[], 1, labelsAux true j fs, rfl, by simp, hmem⟩
      · obtain ⟨a, m, c, he, ha, hc⟩ := ih true (if prev then k else k + 1)
        refine ⟨sectorLabel (if prev then k else k + 1) :: a, m, c,
          by rw [he]; rfl, ?_, hc⟩
        intro hmem
        rcases List.mem_cons.mp hmem with h | h
        · exact hjK ((sectorLabel_eq_iff hj _).mp h)
        · exact ha h

/-- Rows labelled with a sector identifier are critical rows. -/
theorem labelsAux_critical (j : ℕ) :
    ∀ (fs : List Bool) (prev : Bool) (k : ℕ),
      ∀ p ∈ fs.zip (labelsAux prev k fs), p.2 = sectorLabel j → p.1 = true := by
  intro fs
  induction fs with
  | nil => intro prev k p hp _; simp [labelsAux] at hp
  | cons f fs ih =>
    intro prev k p hp hl
    cases f
    · rw [labelsAux_cons_false, List.zip_cons_cons] at hp
      rcases List.mem_cons.mp hp with h | h
      · rw [h] at hl
        exact absurd hl (straight_ne_sectorLabel j)
      · exact ih false k p h hl
    · rw [labelsAux_cons_true, List.zip_cons_cons] at hp
      rcases List.mem_cons.mp hp with h | h
      · rw [h]
      · exact ih true _ p h hl

/-- Claim C6, confirmed: on every track that L2 labels (for any bearing
function, hence for the real spherical one), the sector identifiers assigned
are exactly `S_001 … S_k` for `k` = the number of rising edges into
criticality — `S_j` occurs iff `1 ≤ j ≤ k` — and all rows sharing one sector
identifier form a single unbroken run of critical rows in the track's row
order (the label's occurrences are one contiguous block, and every row
carrying it is critical). -/
theorem C6_theorem (bearing : ℚ → ℚ → ℚ → ℚ → ℚ) (vrows : List L2Row)
    (j : ℕ) (hj : 1 ≤ j) :
    (sectorLabel j ∈ sectorLabels bearing vrows
        ↔ j ≤ sectorCount bearing vrows) ∧
    (∃ a m c, sectorLabels bearing vrows
        = a ++ List.replicate m (sectorLabel j) ++ c ∧
      sectorLabel j ∉ a ∧ sectorLabel j ∉ c) ∧
    (∀ p ∈ (criticalFlags bearing vrows).zip (sectorLabels bearing vrows),
      p.2 = sectorLabel j → p.1 = true) := by
  refine ⟨?_, labelsAux_single_run hj _ false 0, labelsAux_critical j _ false 0⟩
  rw [sectorLabels, assignSectorIds,
    sectorLabel_mem_labelsAux hj (criticalFlags bearing vrows) false 0]
  constructor
  · rintro (⟨hf, _⟩ | ⟨_, h2⟩)
    · exact absurd hf (by simp)
    · simpa [sectorCount] using h2
  · intro h
    exact Or.inr ⟨by omega, by simpa [sectorCount] using h⟩

/-- Witness for C6_theorem at a concrete instantiation. -/
theorem C6_witness :
    (sectorLabel 1 ∈ sectorLabels bearing0 []
        ↔ 1 ≤ sectorCount bearing0 []) ∧
    (∃ a m c, sectorLabels bearing0 []
        = a ++ List.replicate m (sectorLabel 1) ++ c ∧
      sectorLabel 1 ∉ a ∧ sectorLabel 1 ∉ c) ∧
    (∀ p ∈ (criticalFlags bearing0 []).zip (sectorLabels bearing0 []),
      p.2 = sectorLabel 1 → p.1 = true) :=
  C6_theorem bearing0 [] 1 (by decide)

/-- Mapping `sampleData` over the labelling zip ignores the labels. -/
theorem zipWith_setLabel_sampleData :
    ∀ (l₁ : List L2Row) (l₂ : List (String × ℚ)), l₁.length ≤ l₂.length →
      (List.zipWith setLabel l₁ l₂).map sampleData = l₁.map sampleData := by
  intro l₁
  induction l₁ with
  | nil => intro l₂ _; rfl
  | cons r rs ih =>
    intro l₂ h
    cases l₂ with
    | nil => simp at h
    | cons p ps =>
      simp only [List.zipWith_cons_cons, List.map_cons]
      exact congrArg₂ List.cons rfl (ih ps (by simpa using h))

/-- The heading-delta column has one entry per row. -/
theorem deltaHeadings_length (bearing : ℚ → ℚ → ℚ → ℚ → ℚ)
    (vrows : List L2Row) : (deltaHeadings bearing vrows).length = vrows.length := by
  simp [deltaHeadings]

/-- The label column has one entry per row. -/
theorem sectorLabels_length (bearing : ℚ → ℚ → ℚ → ℚ → ℚ)
    (vrows : List L2Row) : (sectorLabels bearing vrows).length = vrows.length := by
  rw [sectorLabels, assignSectorIds,
    labelsAux_length (criticalFlags bearing vrows) false 0]
  simp [criticalFlags, deltaHeadings]

/-- Claim C9, amended: L2 passes a track through unchanged only when it is
skipped (fewer than 10 valid-GPS rows); on a labelled track the rows missing
a GPS coordinate are dropped, and the surviving rows keep all their sample
data unchanged, gaining only the `Sector_ID` and `Delta_Heading` columns. -/
theorem C9_amended (bearing : ℚ → ℚ → ℚ → ℚ → ℚ) (rows : List L2Row) :
    ((rows.filter validGPS).length < 10 → processTrack bearing rows = rows) ∧
    (10 ≤ (rows.filter validGPS).length →
      (processTrack bearing rows).map sampleData
        = ((rows.filter validGPS).map sampleData)) := by
  constructor
  · intro h
    simp [processTrack, h]
  · intro h
    have hnot : ¬ (rows.filter validGPS).length < 10 := by omega
    simp only [processTrack, hnot, if_false]
    apply zipWith_setLabel_sampleData
    rw [List.length_zip, sectorLabels_length, deltaHeadings_length]
    omega

/-- Witness for C9_amended: the nine-row track passes through unchanged, and
on the ten-valid-row track the surviving sample data is exactly that of the
valid rows. -/
theorem C9_witness :
    processTrack bearing0 c9smallRows = c9smallRows ∧
    (processTrack bearing0 c9rows).map sampleData
      = ((c9rows.filter validGPS).map sampleData) :=
  ⟨(C9_amended bearing0 c9smallRows).1 (by decide),
   (C9_amended bearing0 c9rows).2 (by decide)⟩

/-- Claim C9, counterexample: the concrete track `c9rows` enters L2 with 11
rows (ten with valid GPS, one with a missing longitude) and leaves the
per-track processing with 10 rows — the NaN-GPS row was removed, contrary to
the claim that no rows are removed by L2. -/
theorem C9_counterexample :
    c9rows.length = 11 ∧ (processTrack bearing0 c9rows).length = 10 := by
  constructor
  · rfl
  · with_unfolding_all decide

/-! ### L3 lemmas -/

/-- Membership in an ordered insertion. -/
theorem mem_insertOrdered {α : Type} (keep : α → α → Bool) (x a : α) :
    ∀ (l : List α), a ∈ insertOrdered keep x l ↔ a = x ∨ a ∈ l := by
  intro l
  induction l with
  | nil => simp [insertOrdered]
  | cons y ys ih =>
    simp only [insertOrdered]
    by_cases h : keep x y = true
    · rw [if_pos h]
      simp
    · rw [if_neg h]
      simp only [List.mem_cons, ih]
      tauto

/-- Stable insertion sort preserves membership. -/
theorem mem_insertionSortBy {α : Type} (keep : α → α → Bool) (a : α) :
    ∀ (l : List α), a ∈ insertionSortBy keep l ↔ a ∈ l := by
  intro l
  induction l with
  | nil => simp [insertionSortBy]
  | cons y ys ih =>
    simp only [insertionSortBy, mem_insertOrdered, ih, List.mem_cons]

/-- Elements of the runs produced by `runsByAux` come from the accumulator
or the remaining input. -/
theorem mem_runsByAux {α : Type} (f : α → Bool) (x : α) :
    ∀ (xs : List α) (cur : Bool) (acc : List α) (g : List α),
      g ∈ runsByAux f cur acc xs → x ∈ g → x ∈ acc ∨ x ∈ xs := by
  intro xs
  induction xs with
  | nil =>
    intro cur acc g hg hx
    simp only [runsByAux, List.mem_singleton] at hg
    subst hg
    exact Or.inl (List.mem_reverse.mp hx)
  | cons y ys ih =>
    intro cur acc g hg hx
    simp only [runsByAux] at hg
    by_cases h : f y == cur
    · rw [if_pos h] at hg
      rcases ih cur (y :: acc) g hg hx with h2 | h2
      · rcases List.mem_cons.mp h2 with h3 | h3
        · exact Or.inr (by simp [h3])
        · exact Or.inl h3
      · exact Or.inr (by simp [h2])
    · rw [if_neg h] at hg
      rcases List.mem_cons.mp hg with h2 | h2
      · subst h2
        exact Or.inl (List.mem_reverse.mp hx)
      · rcases ih (f y) [y] g h2 hx with h3 | h3
        · exact Or.inr (by simpa using Or.inl (List.mem_singleton.mp h3))
        · exact Or.inr (by simp [h3])

/-- Elements of a run come from the split list. -/
theorem mem_of_mem_runsBy {α : Type} {f : α → Bool} {l g : List α} {x : α}
    (hg : g ∈ runsBy f l) (hx : x ∈ g) : x ∈ l := by
  cases l with
  | nil => simp [runsBy] at hg
  | cons y ys =>
    rcases mem_runsByAux f x ys (f y) [y] g hg hx with h | h
    · simp only [List.mem_singleton] at h
      simp [h]
    · simp [h]

/-- Groups shorter than two samples span no time. -/
theorem durationMs_short : ∀ (g : List PRow), g.length < 2 → durationMs g = 0 := by
  intro g h
  match g with
  | [] => rfl
  | [x] => simp [durationMs, minTimeMs, maxTimeMs]
  | x :: y :: t =>
    simp only [List.length_cons] at h
    omega

/-- Claim C8, confirmed: a candidate group passes the persistence gate of
lines 114-119 (and so yields the record the dedup step sees) precisely when
its time span is at least 0.3 s — the explicit two-sample minimum is
subsumed, since a shorter group spans no time — and every member of every
candidate group survived the hysteresis filter: its per-sample lap-distance
delta is non-NaN and exceeds 2 m in magnitude (candidates at or below 2 m
were discarded before grouping). -/
theorem C8_theorem (prows : List PRow) (g : List PRow)
    (hg : g ∈ eventGroups prows) :
    (confirmGroup g = true ↔ 300 ≤ durationMs g) ∧
    (∀ r ∈ g, ∃ d, r.delta = some d ∧ (2 : ℚ) < absQ d) := by
  constructor
  · constructor
    · intro h
      simp only [confirmGroup, Bool.and_eq_true, decide_eq_true_eq] at h
      exact h.2
    · intro h
      have hlen : 2 ≤ g.length := by
        by_contra hl
        push_neg at hl
        have := durationMs_short g (by omega)
        omega
      simp only [confirmGroup, Bool.and_eq_true, decide_eq_true_eq]
      exact ⟨hlen, h⟩
  · intro r hr
    have hmem : r ∈ sortByTime (·.time) (candidates prows) :=
      mem_of_mem_runsBy hg hr
    have hc : r ∈ candidates prows :=
      (mem_insertionSortBy _ r (candidates prows)).mp hmem
    have hp := (List.mem_filter.mp hc).2
    match hd : r.delta with
    | some d =>
      rw [hd] at hp
      exact ⟨d, rfl, by simpa using hp⟩
    | none =>
      rw [hd] at hp
      simp at hp

set_option maxRecDepth 100000 in
/-- Witness for C8_theorem on the concrete two-candidate group. -/
theorem C8_witness :
    (confirmGroup c8prows = true ↔ 300 ≤ durationMs c8prows) ∧
    (∀ r ∈ c8prows, ∃ d, r.delta = some d ∧ (2 : ℚ) < absQ d) :=
  C8_theorem c8prows c8prows (by with_unfolding_all decide)

/-- A sector label of a candidate row is present and starts with `S_`. -/
theorem candidates_sector (prows : List PRow) (r : PRow)
    (h : r ∈ candidates prows) :
    ∃ s, r.sector = some s ∧ s.startsWith "S_" = true := by
  have h1 := (List.mem_filter.mp h).1
  have h2 := (List.mem_filter.mp h1).1
  have h3 := (List.mem_filter.mp h2).2
  match hs : r.sector with
  | some s =>
    rw [hs] at h3
    exact ⟨s, rfl, by simpa using h3⟩
  | none =>
    rw [hs] at h3
    simp at h3

/-- The winner row of a built event belongs to the group, and the event's
sector is the winner's. -/
theorem buildEvent_sector (track race : String) (L : ℚ) (g : List PRow)
    (e : Event) (h : buildEvent track race L g = some e) :
    ∃ w ∈ g, e.sector = w.sector.getD "" := by
  unfold buildEvent at h
  cases hs : insertionSortBy (fun a b => decide (a.pos ≤ b.pos)) g with
  | nil =>
    rw [hs] at h
    exact Option.noConfusion h
  | cons w rest =>
    rw [hs] at h
    have h2 := Option.some.inj h
    refine ⟨w, ?_, ?_⟩
    · have hw : w ∈ insertionSortBy (fun a b => decide (a.pos ≤ b.pos)) g := by
        rw [hs]
        exact List.mem_cons_self _ _
      exact (mem_insertionSortBy _ w g).mp hw
    · rw [← h2]

/-- Unfolding of `appendEvent` when the group builds no event. -/
theorem appendEvent_none (track race : String) (L : ℚ) (acc : List Event)
    (g : List PRow) (hb : buildEvent track race L g = none) :
    appendEvent track race L acc g = acc := by
  unfold appendEvent
  rw [hb]

/-- Unfolding of `appendEvent` when the group builds an event. -/
theorem appendEvent_some (track race : String) (L : ℚ) (acc : List Event)
    (g : List PRow) (e : Event) (hb : buildEvent track race L g = some e) :
    appendEvent track race L acc g
      = if (acc.map (·.id)).contains e.id then acc else acc ++ [e] := by
  unfold appendEvent
  rw [hb]

/-- Appending an event preserves the distinctness of emitted ids. -/
theorem appendEvent_nodup (track race : String) (L : ℚ) (acc : List Event)
    (g : List PRow) (h : (acc.map (·.id)).Nodup) :
    ((appendEvent track race L acc g).map (·.id)).Nodup := by
  cases hb : buildEvent track race L g with
  | none => rw [appendEvent_none track race L acc g hb]; exact h
  | some e =>
    rw [appendEvent_some track race L acc g e hb]
    by_cases hc : (acc.map (·.id)).contains e.id
    · rw [if_pos hc]; exact h
    · rw [if_neg hc]
      rw [List.map_append, List.nodup_append]
      refine ⟨h, by simp, ?_⟩
      intro a ha hae
      simp only [List.map_cons, List.map_nil, List.mem_singleton] at hae
      subst hae
      exact hc (List.elem_iff.mpr ha)

/-- Folding groups with duplicate suppression keeps ids distinct. -/
theorem foldl_appendEvent_nodup (track race : String) (L : ℚ) :
    ∀ (gs : List (List PRow)) (acc : List Event),
      (acc.map (·.id)).Nodup →
      ((gs.foldl (appendEvent track race L) acc).map (·.id)).Nodup := by
  intro gs
  induction gs with
  | nil => intro acc h; exact h
  | cons g gs ih =>
    intro acc h
    exact ih _ (appendEvent_nodup track race L acc g h)

/-- Every event produced by the fold is inherited or built from a group. -/
theorem mem_foldl_appendEvent (track race : String) (L : ℚ) :
    ∀ (gs : List (List PRow)) (acc : List Event) (e : Event),
      e ∈ gs.foldl (appendEvent track race L) acc →
      e ∈ acc ∨ ∃ g ∈ gs, buildEvent track race L g = some e := by
  intro gs
  induction gs with
  | nil => intro acc e h; exact Or.inl h
  | cons g gs ih =>
    intro acc e h
    rcases ih (appendEvent track race L acc g) e h with h2 | ⟨g', hg', hb⟩
    · cases hb : buildEvent track race L g with
      | none =>
        rw [appendEvent_none track race L acc g hb] at h2
        exact Or.inl h2
      | some e' =>
        rw [appendEvent_some track race L acc g e' hb] at h2
        by_cases hc : (acc.map (·.id)).contains e'.id
        · rw [if_pos hc] at h2
          exact Or.inl h2
        · rw [if_neg hc] at h2
          rcases List.mem_append.mp h2 with h3 | h3
          · exact Or.inl h3
          · simp only [List.mem_singleton] at h3
            subst h3
            exact Or.inr ⟨g, List.mem_cons_self _ _, hb⟩
    · exact Or.inr ⟨g', List.mem_cons_of_mem _ hg', hb⟩

/-- Unfolding of `detectRace` past its guards when the track length is
resolved. -/
theorem detectRace_someL (track race : String) (g0 : List RaceRow) (L : ℚ)
    (h1 : ¬ (g0.filter fun r => r.lapdist.isSome).length < 100)
    (hm : ratMaxOpt ((g0.filter fun r => r.lapdist.isSome).filterMap
      fun r => r.lapdist) = some L) :
    detectRace track race g0
      = if L < 1000 then []
        else
          raceEvents track race L
            (positioned L (sortByTime (·.time)
              (g0.filter fun r => r.lapdist.isSome))) := by
  unfold detectRace
  rw [if_neg h1, hm]

/-- Claim C4, amended: within one (track, race) the emitted
`Critical_Event_ID` values are pairwise distinct (the per-race duplicate
suppression of lines 142-144 guarantees it) and every emitted event's
`Sector_ID` starts with `S_`; but the composite id contains no track or race
component, so distinct races of one run may emit identical ids. -/
theorem C4_amended (track race : String) (g0 : List RaceRow) :
    ((detectRace track race g0).map (·.id)).Nodup ∧
    (∀ e ∈ detectRace track race g0, e.sector.startsWith "S_" = true) := by
  by_cases h1 : (g0.filter fun r => r.lapdist.isSome).length < 100
  · unfold detectRace
    rw [if_pos h1]
    exact ⟨List.nodup_nil, by simp⟩
  · cases hm : ratMaxOpt ((g0.filter fun r => r.lapdist.isSome).filterMap
        fun r => r.lapdist) with
    | none =>
      unfold detectRace
      rw [if_neg h1, hm]
      exact ⟨List.nodup_nil, by simp⟩
    | some L =>
      rw [detectRace_someL track race g0 L h1 hm]
      by_cases h2 : L < 1000
      · rw [if_pos h2]
        exact ⟨List.nodup_nil, by simp⟩
      · rw [if_neg h2]
        constructor
        · exact foldl_appendEvent_nodup track race L _ [] (by simp)
        · intro e he
          rcases mem_foldl_appendEvent track race L _ [] e he with h3 | ⟨g, hg, hb⟩
          · simp at h3
          · obtain ⟨w, hw, hsec⟩ := buildEvent_sector track race L g e hb
            have hg2 : g ∈ eventGroups (positioned L (sortByTime (·.time)
                (g0.filter fun r => r.lapdist.isSome))) :=
              (List.mem_filter.mp hg).1
            have hwc : w ∈ candidates (positioned L (sortByTime (·.time)
                (g0.filter fun r => r.lapdist.isSome))) :=
              (mem_insertionSortBy _ w _).mp (mem_of_mem_runsBy hg2 hw)
            obtain ⟨s, hs, hpre⟩ := candidates_sector _ w hwc
            rw [hsec, hs]
            simpa using hpre

/-- Witness instantiation for C4_amended. -/
theorem C4_witness :
    ((detectRace "Barber" "R1" []).map (·.id)).Nodup ∧
    (∀ e ∈ detectRace "Barber" "R1" [],
      e.sector.startsWith "S_" = true) :=
  C4_amended "Barber" "R1" []

set_option maxRecDepth 100000 in
/-- Claim C4, counterexample: on the concrete two-race input `c4input` the
detector emits two events — one per race, each a confirmed overtake in
`S_001` — whose `Critical_Event_ID` values are both
`S_001_L1_WIN7_LOS7`: ids are not unique across the races of one run. -/
theorem C4_counterexample :
    (detect_critical_events c4input).map (·.id)
      = ["S_001_L1_WIN7_LOS7", "S_001_L1_WIN7_LOS7"] := by
  with_unfolding_all decide

/-- Claim C1, counterexample: with L1 and L2 succeeding and L3 returning zero
events, `run_full_pipeline` returns at the `if not event_list` branch and the
export layer L5 is **not** run, contrary to the claim that it "still runs L5
to completion". -/
theorem C1_counterexample :
    (run_full_pipeline (some ()) (some ()) ([] : List Unit)).ranL5 = false ∧
    (run_full_pipeline (some ()) (some ()) ([] : List Unit)).noEventsMessage
      = true := ⟨rfl, rfl⟩

/-- Claim C1, amended: if L1 and L2 both succeed and L3 yields zero confirmed
events, the driver logs the "no events" message and returns immediately;
the zero-event case is not treated as an L1/L2-style abort, but neither L4
nor L5 is run. -/
theorem C1_amended {M E : Type} (m s : M) (events : List E)
    (h : events = []) :
    (run_full_pipeline (some m) (some s) events).noEventsMessage = true ∧
    (run_full_pipeline (some m) (some s) events).ranL4 = false ∧
    (run_full_pipeline (some m) (some s) events).ranL5 = false ∧
    (run_full_pipeline (some m) (some s) events).abortedIngestion = false ∧
    (run_full_pipeline (some m) (some s) events).abortedSectors = false := by
  subst h
  exact ⟨rfl, rfl, rfl, rfl, rfl⟩

/-- Witness for C1_amended at a concrete instantiation. -/
theorem C1_witness :
    (run_full_pipeline (some 0) (some 0) ([] : List ℕ)).noEventsMessage
      = true ∧
    (run_full_pipeline (some 0) (some 0) ([] : List ℕ)).ranL4 = false ∧
    (run_full_pipeline (some 0) (some 0) ([] : List ℕ)).ranL5 = false ∧
    (run_full_pipeline (some 0) (some 0) ([] : List ℕ)).abortedIngestion
      = false ∧
    (run_full_pipeline (some 0) (some 0) ([] : List ℕ)).abortedSectors
      = false :=
  C1_amended 0 0 [] rfl

/-- Claim C3, amended: L1 does not preserve per-row vehicle identifiers; the
stamping step assigns one file-level `Vehicle_ID` (taken from the file's
first resampled row) to every row, so each input file contributes at most one
`Vehicle_ID` partition. -/
theorem C3_amended (track race : String) (f : SyncedFile) :
    (stampVehicleContext track race f).map (·.vehicleID)
      = List.replicate f.rows.length (fileVehicleId f) := by
  unfold stampVehicleContext
  induction f.rows with
  | nil => rfl
  | cons r rs ih =>
    simp only [List.map_cons, List.length_cons, List.replicate_succ,
      List.cons.injEq]
    exact ⟨trivial, by simpa using ih⟩

/-- Claim C3, counterexample: stamping the concrete two-vehicle file `c3file`
(vehicle ids "7" and "12") yields rows whose `Vehicle_ID` values are all "7"
(the first row's id): the output has one `Vehicle_ID` partition, not two. -/
theorem C3_counterexample :
    ((stampVehicleContext "Barber" "R1" c3file).map (·.vehicleID)).dedup
      = [some "7"] := by decide

/-! ### L4 lemmas: decimal shape -/

/-- Decimal digits render to digit characters. -/
theorem digitChar_isDigit {d : ℕ} (h : d < 10) : (digitChar d).isDigit = true := by
  interval_cases d <;> decide

/-- Characters of a rendered number are digit characters. -/
theorem mem_digitChars_isDigit (n : ℕ) :
    ∀ c ∈ (natDigits n).map digitChar, c.isDigit = true := by
  intro c hc
  obtain ⟨d, hd, rfl⟩ := List.mem_map.mp hc
  exact digitChar_isDigit (natDigitsAux_lt10 _ _ d hd)

/-- Splitting a digit block followed by a non-digit under
`takeWhile`/`dropWhile`. -/
theorem takeWhile_digits_append :
    ∀ (A : List Char) (b : Char) (rest : List Char),
      (∀ c ∈ A, c.isDigit = true) → b.isDigit = false →
      ((A ++ b :: rest).takeWhile (fun c => c.isDigit) = A ∧
        (A ++ b :: rest).dropWhile (fun c => c.isDigit) = b :: rest) := by
  intro A
  induction A with
  | nil =>
    intro b rest _ hb
    simp [List.takeWhile_cons, List.dropWhile_cons, hb]
  | cons a as ih =>
    intro b rest hA hb
    have ha : a.isDigit = true := hA a (List.mem_cons_self _ _)
    have hrec := ih b rest (fun c hc => hA c (List.mem_cons_of_mem _ hc)) hb
    constructor
    · simp [List.takeWhile_cons, ha, hrec.1]
    · simp [List.dropWhile_cons, ha, hrec.2]

/-- A one-digit number has a one-element digit list. -/
theorem natDigits_small {k : ℕ} (h : k < 10) : natDigits k = [k] := by
  simp [natDigits, natDigitsAux, h]

/-- Two-digit numbers split into quotient and remainder digits. -/
theorem natDigits_two {m : ℕ} (h10 : 10 ≤ m) (h100 : m < 100) :
    natDigits m = [m / 10, m % 10] := by
  have hm : ¬ m < 10 := by omega
  show natDigitsAux (m + 1) m = _
  rw [natDigitsAux]
  rw [if_neg hm]
  have hdiv : m / 10 < 10 := by omega
  have : natDigitsAux m (m / 10) = [m / 10] := by
    match m, h10 with
    | (n + 10), _ =>
      rw [natDigitsAux]
      rw [if_pos (by omega)]
  rw [this]
  rfl

/-- Two-place zero padding of a value below 100 is exactly two digit
characters. -/
theorem padChars2_shape {m : ℕ} (hm : m < 100) :
    ∃ d1 d2, padChars 2 m = [d1, d2] ∧ d1.isDigit = true ∧ d2.isDigit = true := by
  by_cases h10 : m < 10
  · refine ⟨'0', digitChar m, ?_, by decide, digitChar_isDigit h10⟩
    rw [padChars, natDigits_small h10]
    rfl
  · refine ⟨digitChar (m / 10), digitChar (m % 10), ?_, ?_, ?_⟩
    · rw [padChars, natDigits_two (by omega) hm]
      rfl
    · exact digitChar_isDigit (by omega)
    · exact digitChar_isDigit (Nat.mod_lt _ (by omega))

/-- A digit block, a dot and two padded digits pass the unsigned
two-decimal check. -/
theorem unsignedTwoDec_shape (k m : ℕ) (hm : m < 100) :
    unsignedTwoDec ((natDigits k).map digitChar ++ '.' :: padChars 2 m)
      = true := by
  obtain ⟨hT, hD⟩ := takeWhile_digits_append ((natDigits k).map digitChar)
    '.' (padChars 2 m) (mem_digitChars_isDigit k) (by decide)
  have hne : (natDigits k).map digitChar ≠ [] := by
    intro h
    exact natDigitsAux_ne_nil (k + 1) k (Nat.lt_succ_self k)
      (List.map_eq_nil_iff.mp h)
  obtain ⟨d1, d2, hpad, h1, h2⟩ := padChars2_shape hm
  unfold unsignedTwoDec
  rw [hT, hD, hpad]
  simp [hne, h1, h2]

/-- Unfolding of the signed checker on an explicit character list. -/
theorem isSignedTwoDec_cons (c : Char) (rest : List Char) :
    isSignedTwoDec (String.mk (c :: rest))
      = if c = '-' then unsignedTwoDec rest else unsignedTwoDec (c :: rest) :=
  rfl

/-- Every non-NaN formatted reason value is a signed two-decimal string. -/
theorem isSignedTwoDec_format (x : ℚ) :
    isSignedTwoDec (formatTwoDec (some x)) = true := by
  have hm : (Rat.floor (absQ x * 100 + 1 / 2)).toNat % 100 < 100 :=
    Nat.mod_lt _ (by omega)
  have hfmt : formatTwoDec (some x)
      = String.mk ((if x < 0 then ['-'] else []) ++
        (natDigits ((Rat.floor (absQ x * 100 + 1 / 2)).toNat / 100)).map
          digitChar
        ++ '.' :: padChars 2 ((Rat.floor (absQ x * 100 + 1 / 2)).toNat % 100)) :=
    rfl
  rw [hfmt]
  by_cases hx : x < 0
  · rw [if_pos hx]
    simp only [List.cons_append, List.nil_append]
    rw [isSignedTwoDec_cons, if_pos rfl]
    exact unsignedTwoDec_shape _ _ hm
  · rw [if_neg hx]
    simp only [List.nil_append]
    obtain ⟨dh, dt, hA⟩ :
        ∃ dh dt, (natDigits ((Rat.floor (absQ x * 100 + 1 / 2)).toNat / 100)).map
          digitChar = dh :: dt := by
      have hne : (natDigits ((Rat.floor (absQ x * 100 + 1 / 2)).toNat / 100)).map
          digitChar ≠ [] := by
        intro h
        exact natDigitsAux_ne_nil _ _ (Nat.lt_succ_self _) (List.map_eq_nil_iff.mp h)
      obtain ⟨a, as, h⟩ := List.exists_cons_of_ne_nil hne
      exact ⟨a, as, h⟩
    have hdig : dh.isDigit = true := by
      have := mem_digitChars_isDigit ((Rat.floor (absQ x * 100 + 1 / 2)).toNat / 100)
      rw [hA] at this
      exact this dh (List.mem_cons_self _ _)
    rw [hA]
    simp only [List.cons_append]
    rw [isSignedTwoDec_cons,
      if_neg (by intro h; rw [h] at hdig; exact absurd hdig (by decide))]
    have h2 := unsignedTwoDec_shape
      ((Rat.floor (absQ x * 100 + 1 / 2)).toNat / 100)
      ((Rat.floor (absQ x * 100 + 1 / 2)).toNat % 100) hm
    rw [hA] at h2
    simpa using h2

/-! ### L4 lemmas: reason code selection -/

/-- The scan of `pythonMaxKey` returns one of the scanned pairs. -/
theorem foldl_pick_mem :
    ∀ (xs : List (String × Option ℚ)) (x : String × Option ℚ),
      xs.foldl (fun acc y => if cmpGTOpt y.2 acc.2 then y else acc) x ∈ x :: xs := by
  intro xs
  induction xs with
  | nil => intro x; simp
  | cons y ys ih =>
    intro x
    simp only [List.foldl_cons]
    by_cases h : cmpGTOpt y.2 x.2 = true
    · rw [if_pos h]
      exact List.mem_cons_of_mem x (ih y)
    · rw [if_neg h]
      rcases List.mem_cons.mp (ih x) with h2 | h2
      · rw [h2]
        exact List.mem_cons_self _ _
      · exact List.mem_cons_of_mem x (List.mem_cons_of_mem y h2)

/-- The selected pair is one of the four magnitude entries. -/
theorem primaryPair_mem (d : Deltas) : primaryPair d ∈ magList d :=
  foldl_pick_mem _ _

/-- The selected reason code is one of the four delta codes. -/
theorem primaryPair_code (d : Deltas) :
    (primaryPair d).1 = "Brake_Pressure_Delta" ∨
    (primaryPair d).1 = "Brake_Timing_Delta" ∨
    (primaryPair d).1 = "Throttle_Commit_Delta" ∨
    (primaryPair d).1 = "Gear_Delta" := by
  have h := primaryPair_mem d
  simp only [magList, List.mem_cons, List.not_mem_nil, or_false] at h
  rcases h with h | h | h | h <;> rw [h] <;> simp

/-- Claim C5, amended: whenever L4 finishes an event without raising, the
record's `Reason_Code` is one of the six enumerated values; events tagged
`Data_Missing` or `Invalid_Sector` carry **no** `Reason_Value` (the code
never writes one on those paths); analyzed events always carry a
`Reason_Value` string, which is either a signed decimal with two decimal
places or the string `nan` (the latter when the selected delta is NaN,
e.g. an all-NaN brake-pressure column). -/
theorem C5_amended (tbl : L4Table) (e : L3EventIn) (r : AnalyzedEvent)
    (h : run_causal_event tbl e = Except.ok r) :
    r.code ∈ reasonCodes ∧
    (r.value = none ↔ (r.code = "Data_Missing" ∨ r.code = "Invalid_Sector")) ∧
    (∀ s, r.value = some s → s = "nan" ∨ isSignedTwoDec s = true) := by
  unfold run_causal_event at h
  by_cases h1 : e.sector.startsWith "S_" = false
  · rw [if_pos h1] at h
    obtain rfl : (⟨"Invalid_Sector", none⟩ : AnalyzedEvent) = r :=
      Except.ok.inj h
    refine ⟨by simp [reasonCodes], by simp, by simp⟩
  · rw [if_neg h1] at h
    by_cases h2 : ((sliceFor tbl e.winner e.sector e.time).isEmpty
        || (sliceFor tbl e.loser e.sector e.time).isEmpty) = true
    · rw [if_pos h2] at h
      obtain rfl : (⟨"Data_Missing", none⟩ : AnalyzedEvent) = r :=
        Except.ok.inj h
      refine ⟨by simp [reasonCodes], by simp, by simp⟩
    · rw [if_neg h2] at h
      cases hd : computeDeltas tbl (sliceFor tbl e.winner e.sector e.time)
          (sliceFor tbl e.loser e.sector e.time) e.time with
      | error u =>
        rw [hd] at h
        exact absurd h (by simp [Except.map])
      | ok d =>
        rw [hd] at h
        simp only [Except.map, Except.ok.injEq] at h
        obtain rfl : (⟨(primaryPair d).1,
            some (formatTwoDec (reasonValueOf d (primaryPair d).1))⟩ :
            AnalyzedEvent) = r := h
        refine ⟨?_, ?_, ?_⟩
        · rcases primaryPair_code d with h4 | h4 | h4 | h4 <;>
            simp [reasonCodes, h4]
        · simp only [iff_false, Option.some_ne_none, false_iff]
          rcases primaryPair_code d with h4 | h4 | h4 | h4 <;>
            simp [h4]
        · intro s hs
          obtain rfl : formatTwoDec (reasonValueOf d (primaryPair d).1) = s :=
            Option.some.inj hs
          cases hv : reasonValueOf d (primaryPair d).1 with
          | none => exact Or.inl rfl
          | some q => exact Or.inr (isSignedTwoDec_format q)

/-- Witness for C5_amended at the concrete no-channel table and event. -/
theorem C5_witness :
    (⟨"Brake_Pressure_Delta", some "0.00"⟩ : AnalyzedEvent).code ∈ reasonCodes ∧
    ((⟨"Brake_Pressure_Delta", some "0.00"⟩ : AnalyzedEvent).value = none ↔
      ((⟨"Brake_Pressure_Delta", some "0.00"⟩ : AnalyzedEvent).code
          = "Data_Missing" ∨
        (⟨"Brake_Pressure_Delta", some "0.00"⟩ : AnalyzedEvent).code
          = "Invalid_Sector")) ∧
    (∀ s, (⟨"Brake_Pressure_Delta", some "0.00"⟩ : AnalyzedEvent).value = some s →
      s = "nan" ∨ isSignedTwoDec s = true) :=
  C5_amended c10table c10event ⟨"Brake_Pressure_Delta", some "0.00"⟩
    (by with_unfolding_all rfl)

/-- Claim C5, counterexample: the concrete event with sector `STRAIGHT`
is tagged `Invalid_Sector` and its record carries **no** `Reason_Value`,
contrary to the claim that every record after L4 carries a parseable
two-decimal `Reason_Value`. -/
theorem C5_counterexample :
    run_causal_event c10table ⟨10000, "7", "12", "STRAIGHT"⟩
      = Except.ok ⟨"Invalid_Sector", none⟩ := by
  with_unfolding_all rfl

/-- Position of the brake-pressure code in the fixed order. -/
theorem orderIdx_BP : orderIdx "Brake_Pressure_Delta" = 0 := rfl

/-- Position of the brake-timing code in the fixed order. -/
theorem orderIdx_BT : orderIdx "Brake_Timing_Delta" = 1 := rfl

/-- Position of the throttle-commit code in the fixed order. -/
theorem orderIdx_TC : orderIdx "Throttle_Commit_Delta" = 2 := rfl

/-- Position of the gear code in the fixed order. -/
theorem orderIdx_G : orderIdx "Gear_Delta" = 3 := rfl

/-- Claim C7, amended: for every event reaching the delta-ranking step
whose four deltas are all non-NaN, the selected pair carries the maximal
normalized magnitude (every magnitude is at most the selected one), no
delta earlier in the fixed order Brake_Pressure, Brake_Timing,
Throttle_Commit, Gear attains that magnitude (ties break to the earliest),
and the stored reason value is the raw signed delta of the selected code. -/
theorem C7_amended (d : Deltas) (a b c g : ℚ)
    (ha : d.bp = some a) (hb : d.bt = some b) (hc : d.tc = some c)
    (hg : d.gd = some g) :
    ∃ m : ℚ, (primaryPair d).2 = some m ∧
      (∀ p ∈ magList d, ∀ q, p.2 = some q → q ≤ m) ∧
      (∀ p ∈ magList d, orderIdx p.1 < orderIdx (primaryPair d).1 →
        p.2 ≠ some m) ∧
      (((primaryPair d).1 = "Brake_Pressure_Delta" ∧
          reasonValueOf d (primaryPair d).1 = some a) ∨
       ((primaryPair d).1 = "Brake_Timing_Delta" ∧
          reasonValueOf d (primaryPair d).1 = some b) ∨
       ((primaryPair d).1 = "Throttle_Commit_Delta" ∧
          reasonValueOf d (primaryPair d).1 = some c) ∨
       ((primaryPair d).1 = "Gear_Delta" ∧
          reasonValueOf d (primaryPair d).1 = some g)) := by
  obtain ⟨bp, bt, tc, gd⟩ := d
  dsimp only at ha hb hc hg
  subst ha hb hc hg
  simp only [primaryPair, magList, Option.map_some', List.foldl_cons,
    List.foldl_nil]
  split_ifs with h1 h2 h3 h4 h5 h6 h7 <;>
    simp only [cmpGTOpt, decide_eq_true_eq] at * <;>
    refine ⟨_, rfl, ?_, ?_, ?_⟩ <;>
    first
      | exact Or.inl ⟨by trivial, by trivial⟩
      | exact Or.inr (Or.inl ⟨by trivial, by trivial⟩)
      | exact Or.inr (Or.inr (Or.inl ⟨by trivial, by trivial⟩))
      | exact Or.inr (Or.inr (Or.inr ⟨by trivial, by trivial⟩))
      | (intro p hp x hx
         simp only [List.mem_cons, List.not_mem_nil, or_false] at hp
         rcases hp with rfl | rfl | rfl | rfl <;>
           first
             | (simp only [orderIdx_BP, orderIdx_BT, orderIdx_TC,
                  orderIdx_G] at x
                exact absurd x (by decide))
             | linarith [Option.some.inj hx])

/-- Witness for C7_amended on concrete all-non-NaN deltas. -/
theorem C7_witness :
    ∃ m : ℚ,
      (primaryPair ⟨some 1, some 0, some 0, some 0⟩).2 = some m ∧
      (∀ p ∈ magList ⟨some 1, some 0, some 0, some 0⟩, ∀ q, p.2 = some q →
        q ≤ m) ∧
      (∀ p ∈ magList ⟨some 1, some 0, some 0, some 0⟩,
        orderIdx p.1
          < orderIdx (primaryPair ⟨some 1, some 0, some 0, some 0⟩).1 →
        p.2 ≠ some m) ∧
      (((primaryPair ⟨some 1, some 0, some 0, some 0⟩).1
            = "Brake_Pressure_Delta" ∧
          reasonValueOf ⟨some 1, some 0, some 0, some 0⟩
            (primaryPair ⟨some 1, some 0, some 0, some 0⟩).1 = some 1) ∨
       ((primaryPair ⟨some 1, some 0, some 0, some 0⟩).1
            = "Brake_Timing_Delta" ∧
          reasonValueOf ⟨some 1, some 0, some 0, some 0⟩
            (primaryPair ⟨some 1, some 0, some 0, some 0⟩).1 = some 0) ∨
       ((primaryPair ⟨some 1, some 0, some 0, some 0⟩).1
            = "Throttle_Commit_Delta" ∧
          reasonValueOf ⟨some 1, some 0, some 0, some 0⟩
            (primaryPair ⟨some 1, some 0, some 0, some 0⟩).1 = some 0) ∨
       ((primaryPair ⟨some 1, some 0, some 0, some 0⟩).1 = "Gear_Delta" ∧
          reasonValueOf ⟨some 1, some 0, some 0, some 0⟩
            (primaryPair ⟨some 1, some 0, some 0, some 0⟩).1 = some 0)) :=
  C7_amended ⟨some 1, some 0, some 0, some 0⟩ 1 0 0 0 rfl rfl rfl rfl

/-- Claim C7, counterexample: with the `pbrake_f` column present but
all-NaN in both window slices (reachable, e.g. after a multi-file column
union), the brake-pressure delta is NaN while the throttle-commit delta is
2 s with normalized magnitude 1/5; NaN comparisons are all false, so the
scan keeps `Brake_Pressure_Delta` — not the delta of largest normalized
magnitude — and the stored `Reason_Value` is `nan`, not a raw signed
delta. -/
theorem C7_counterexample :
    run_causal_event c7table c7event
        = Except.ok ⟨"Brake_Pressure_Delta", some "nan"⟩ ∧
    computeDeltas c7table (sliceFor c7table "7" "S_001" 10000)
        (sliceFor c7table "12" "S_001" 10000) 10000 = Except.ok c7deltas ∧
    c7deltas.bp = none ∧ c7deltas.tc = some 2 ∧
    (magList c7deltas).lookup "Throttle_Commit_Delta" = some (some (1 / 5)) ∧
    (primaryPair c7deltas).1 = "Brake_Pressure_Delta" ∧
    reasonValueOf c7deltas (primaryPair c7deltas).1 = none := by
  refine ⟨?_, ?_, rfl, rfl, ?_, ?_, ?_⟩
  · with_unfolding_all rfl
  · with_unfolding_all rfl
  · with_unfolding_all rfl
  · with_unfolding_all rfl
  · with_unfolding_all rfl

/-- Claim C10, confirmed: when the winner and loser window slices are both
nonempty but the master table has none of the control columns `pbrake_f`,
`ath` and `Gear`, all four deltas default to 0.0, the scan keeps the first
key, and the event is assigned `Reason_Code = Brake_Pressure_Delta` with
`Reason_Value = "0.00"` — it is not tagged `Data_Missing`. -/
theorem C10_theorem (tbl : L4Table) (e : L3EventIn)
    (hsec : e.sector.startsWith "S_" = true)
    (hpb : tbl.hasPbrake = false) (hath : tbl.hasAth = false)
    (hgear : tbl.hasGear = false)
    (hw : (sliceFor tbl e.winner e.sector e.time).isEmpty = false)
    (hl : (sliceFor tbl e.loser e.sector e.time).isEmpty = false) :
    run_causal_event tbl e
      = Except.ok ⟨"Brake_Pressure_Delta", some "0.00"⟩ ∧
    computeDeltas tbl (sliceFor tbl e.winner e.sector e.time)
      (sliceFor tbl e.loser e.sector e.time) e.time
      = Except.ok ⟨some 0, some 0, some 0, some 0⟩ := by
  have hcd : computeDeltas tbl (sliceFor tbl e.winner e.sector e.time)
      (sliceFor tbl e.loser e.sector e.time) e.time
      = Except.ok ⟨some 0, some 0, some 0, some 0⟩ := by
    simp [computeDeltas, hgear, hpb, hath]
  refine ⟨?_, hcd⟩
  unfold run_causal_event
  rw [if_neg (by rw [hsec]; simp), if_neg (by rw [hw, hl]; simp), hcd]
  with_unfolding_all rfl

/-- Witness for C10_theorem at the concrete no-channel table. -/
theorem C10_witness :
    run_causal_event c10table c10event
      = Except.ok ⟨"Brake_Pressure_Delta", some "0.00"⟩ ∧
    computeDeltas c10table
      (sliceFor c10table c10event.winner c10event.sector c10event.time)
      (sliceFor c10table c10event.loser c10event.sector c10event.time)
      c10event.time
      = Except.ok ⟨some 0, some 0, some 0, some 0⟩ :=
  C10_theorem c10table c10event (by with_unfolding_all decide) rfl rfl rfl
    (by with_unfolding_all decide) (by with_unfolding_all decide)
